import Mathlib

/-!
Verification of the Chandryaan3 stock-dashboard core against its
natural-language specification.

The development shallowly embeds the three core components of the
repository:

* the indicator engine `calculate_technical_indicators` from
  `src/utils.py` (rolling means, Bollinger variance, RSI, MACD,
  volume EMA), modelled over exact rationals, with pandas NaN cells
  rendered as `Option.none`;
* the summary formatter `get_financial_summary` / `format_large_number`
  from `src/utils.py`, with Python values modelled by the `PyVal` type;
* the favorites store `add_favorite_stock` / `remove_favorite_stock` /
  `get_user_favorites` from `src/database.py`, with the SQLite tables
  modelled by explicit lists and each session-scoped operation as a
  pure state transformer.

Floating-point arithmetic is idealised as exact rational arithmetic;
IEEE special values are modelled explicitly where the source relies on
them (the `inf`/`NaN` cases inside the RSI quotient).
-/

namespace Chandryaan3

/-! ### Data model: one OHLCV record per trading session -/

structure PricePoint where
  openPrice : ℚ
  high : ℚ
  low : ℚ
  close : ℚ
  volume : ℚ
deriving DecidableEq, Repr

/-! ### Rolling-window primitives

`df['Close'].rolling(window=w).mean()` (pandas, default
`min_periods = w`): the cell at index `i` is NaN while fewer than `w`
observations are available, i.e. while `i + 1 < w`, and otherwise the
arithmetic mean of the `w` trailing values.  NaN cells are rendered as
`none`. -/

/-- The trailing window of width `w` ending at index `i`:
the elements of `xs` at positions `i+1-w` through `i`. -/
def windowAt (w i : ℕ) (xs : List ℚ) : List ℚ :=
  (xs.take (i + 1)).drop (i + 1 - w)

/-- Embeds `Series.rolling(window=w).mean()` (pandas default
`min_periods = w`): `none` until the window is full, then the mean of
the trailing `w` values. -/
def rollingMean (w : ℕ) (xs : List ℚ) : List (Option ℚ) :=
  (List.range xs.length).map (fun i =>
    if i + 1 < w then none
    else some ((windowAt w i xs).sum / (w : ℚ)))

/-- Embeds the square of `Series.rolling(window=w).std(ddof)` : the
rolling variance with `ddof` degrees-of-freedom correction.  pandas'
`std` returns the square root of this quantity; the source calls it
with the pandas default `ddof = 1`.  The variance (rather than the
standard deviation) is kept so that the embedding stays inside ℚ; the
band columns are recovered from it in `upperBandVal` below. -/
def rollingVar (ddof w : ℕ) (xs : List ℚ) : List (Option ℚ) :=
  (List.range xs.length).map (fun i =>
    if i + 1 < w then none
    else
      let win := windowAt w i xs
      let μ := win.sum / (w : ℚ)
      some ((win.map (fun x => (x - μ) ^ 2)).sum / ((w : ℚ) - (ddof : ℚ))))

/-! ### RSI gain/loss series

`delta = df['Close'].diff()` has NaN at index 0.
`delta.where(delta > 0, 0)`: the condition `NaN > 0` is `False`, so the
index-0 cell becomes the replacement value `0`; elsewhere the cell is
`max(delta, 0)`.  Likewise `-delta.where(delta < 0, 0)` is `0` at index
0 and `max(-delta, 0)` elsewhere. -/

/-- Embeds `delta.where(delta > 0, 0)` for `delta = Close.diff()`. -/
def gains : List ℚ → List ℚ
  | [] => []
  | x :: rest => 0 :: List.zipWith (fun cur prev => max (cur - prev) 0) rest (x :: rest)

/-- Embeds `-delta.where(delta < 0, 0)` for `delta = Close.diff()`. -/
def losses : List ℚ → List ℚ
  | [] => []
  | x :: rest => 0 :: List.zipWith (fun cur prev => max (prev - cur) 0) rest (x :: rest)

/-- Embeds `gain = delta.where(delta > 0, 0).rolling(window=14).mean()`. -/
def avgGain (closes : List ℚ) : List (Option ℚ) := rollingMean 14 (gains closes)

/-- Embeds `loss = -delta.where(delta < 0, 0).rolling(window=14).mean()`. -/
def avgLoss (closes : List ℚ) : List (Option ℚ) := rollingMean 14 (losses closes)

/-- Embeds `df['RSI'] = 100 - (100 / (1 + gain / loss))` under IEEE-754
semantics, cellwise: while either rolling mean is NaN the cell is NaN
(`none`); with `loss ≠ 0` the quotient is finite and the formula is
exact; with `loss = 0 < gain` the quotient is `+inf` and the formula
collapses to `100`; with `loss = gain = 0` the quotient `0/0` is NaN,
which propagates (`none`). -/
def rsiColumn (closes : List ℚ) : List (Option ℚ) :=
  List.zipWith (fun og ol =>
    match og, ol with
    | some g, some l =>
        if l ≠ 0 then some (100 - 100 / (1 + g / l))
        else if 0 < g then some 100
        else none
    | _, _ => none) (avgGain closes) (avgLoss closes)

/-! ### Exponential moving averages (`ewm(span=s, adjust=False).mean()`)

With `adjust=False` pandas computes `y 0 = x 0` and
`y t = α * x t + (1 - α) * y (t-1)` where `α = 2 / (span + 1)`. -/

def alphaOfSpan (span : ℕ) : ℚ := 2 / ((span : ℚ) + 1)

/-- The tail of the `adjust=False` recurrence: `prev` is the previous
output value, and each input `x` produces `α * x + (1 - α) * prev`. -/
def ewmAdjFalseAux (α : ℚ) : ℚ → List ℚ → List ℚ
  | _, [] => []
  | prev, x :: rest =>
      let y := α * x + (1 - α) * prev
      y :: ewmAdjFalseAux α y rest

/-- Embeds `Series.ewm(span=span, adjust=False).mean()`. -/
def ewmAdjFalse (span : ℕ) : List ℚ → List ℚ
  | [] => []
  | x :: rest => x :: ewmAdjFalseAux (alphaOfSpan span) x rest

/-- Embeds `df['MACD'] = exp1 - exp2` with
`exp1 = Close.ewm(span=12, adjust=False).mean()` and
`exp2 = Close.ewm(span=26, adjust=False).mean()`. -/
def macdLine (closes : List ℚ) : List ℚ :=
  List.zipWith (· - ·) (ewmAdjFalse 12 closes) (ewmAdjFalse 26 closes)

/-- Embeds `df['Signal_Line'] = df['MACD'].ewm(span=9, adjust=False).mean()`. -/
def signalLine (closes : List ℚ) : List ℚ :=
  ewmAdjFalse 9 (macdLine closes)

/-- Embeds `df['MACD_Histogram'] = df['MACD'] - df['Signal_Line']`. -/
def macdHistogram (closes : List ℚ) : List ℚ :=
  List.zipWith (· - ·) (macdLine closes) (signalLine closes)

/-! ### The indicator frame -/

/-- The derived columns appended by `calculate_technical_indicators`.
The source's `20STD` column is the square root of `var20`; the
`Upper_Band`/`Lower_Band` columns, which involve that square root, are
characterised by the relations `upperBandVal`/`lowerBandVal` below. -/
structure IndicatorFrame where
  ma20 : List (Option ℚ)
  ma50 : List (Option ℚ)
  ma200 : List (Option ℚ)
  sma20 : List (Option ℚ)
  var20 : List (Option ℚ)
  rsi : List (Option ℚ)
  macd : List ℚ
  signal_line : List ℚ
  macd_histogram : List ℚ
  volume_ema : List ℚ

/-- The columns computed by the body of `calculate_technical_indicators`
for a non-empty frame (`src/utils.py` lines 56-87). -/
def ctiFrame (ps : List PricePoint) : IndicatorFrame :=
  let closes := ps.map (·.close)
  { ma20 := rollingMean 20 closes
    ma50 := rollingMean 50 closes
    ma200 := rollingMean 200 closes
    sma20 := rollingMean 20 closes
    var20 := rollingVar 1 20 closes
    rsi := rsiColumn closes
    macd := macdLine closes
    signal_line := signalLine closes
    macd_histogram := macdHistogram closes
    volume_ema := ewmAdjFalse 20 (ps.map (·.volume)) }

/-- Embeds `calculate_technical_indicators` (`src/utils.py` lines 43-87):
`None` input and empty frames yield `None`; otherwise the derived
columns are appended. -/
def calculate_technical_indicators : Option (List PricePoint) → Option IndicatorFrame
  | none => none
  | some ps => if ps.isEmpty then none else some (ctiFrame ps)

/-- The value of the `Upper_Band` column at index `i`
(`df['20MA'] + df['20STD'] * 2`), as a real number: the `20STD` cell is
the square root of the `ddof = 1` rolling variance. -/
def upperBandVal (xs : List ℚ) (i : ℕ) (u : ℝ) : Prop :=
  ∃ m v : ℚ, (rollingMean 20 xs)[i]? = some (some m) ∧
    (rollingVar 1 20 xs)[i]? = some (some v) ∧
    u = (m : ℝ) + 2 * Real.sqrt (v : ℝ)

/-- The value of the `Lower_Band` column at index `i`
(`df['20MA'] - df['20STD'] * 2`), as a real number. -/
def lowerBandVal (xs : List ℚ) (i : ℕ) (u : ℝ) : Prop :=
  ∃ m v : ℚ, (rollingMean 20 xs)[i]? = some (some m) ∧
    (rollingVar 1 20 xs)[i]? = some (some v) ∧
    u = (m : ℝ) - 2 * Real.sqrt (v : ℝ)

/-- Modelled from the spec (for the refinement comparison in C2 only):
the band value the specification asserts, using the population
standard deviation (`ddof = 0`) instead of the source's sample one. -/
def specUpperBandVal (xs : List ℚ) (i : ℕ) (u : ℝ) : Prop :=
  ∃ m v : ℚ, (rollingMean 20 xs)[i]? = some (some m) ∧
    (rollingVar 0 20 xs)[i]? = some (some v) ∧
    u = (m : ℝ) + 2 * Real.sqrt (v : ℝ)

/-! ### Summary formatter (`get_financial_summary`, `format_large_number`)

Python values flowing through the formatter are modelled by `PyVal`:
the raw fundamentals record is a finite map from field names to
values, and the display record maps summary keys to values. -/

inductive PyVal where
  | pint : ℤ → PyVal
  | pfloat : ℚ → PyVal
  | pstr : String → PyVal
  | pnone : PyVal
deriving DecidableEq, Repr

/-- Python truthiness for the values `PyVal` models: zero numbers, the
empty string and `None` are falsy. -/
def pyTruthy : PyVal → Bool
  | .pint n => n ≠ 0
  | .pfloat q => q ≠ 0
  | .pstr s => s ≠ ""
  | .pnone => false

/-- `info.get(k, default)` on the raw fundamentals dict. -/
def dictGet (info : List (String × PyVal)) (k : String) (default : PyVal) : PyVal :=
  match info.lookup k with
  | some v => v
  | none => default

/-- Python `v * 100` on the values that can reach the dividend-yield
multiplication.  (`None * 100` would raise a `TypeError`, but that
operand is unreachable behind the truthiness guard; the catch-all keeps
the model total.) -/
def pyMul100 : PyVal → PyVal
  | .pint n => .pint (n * 100)
  | .pfloat q => .pfloat (q * 100)
  | .pstr s => .pstr (String.join (List.replicate 100 s))
  | .pnone => .pnone

/-- `isinstance(v, (int, float))`. -/
def isNumber : PyVal → Bool
  | .pint _ => true
  | .pfloat _ => true
  | _ => false

/-- `isinstance(v, float)`. -/
def isFloat : PyVal → Bool
  | .pfloat _ => true
  | _ => false

/-- The rational a numeric `PyVal` denotes. -/
def toRat : PyVal → ℚ
  | .pint n => (n : ℚ)
  | .pfloat q => q
  | _ => 0

/-- Round to the nearest integer, ties to even: the rounding Python's
`format(x, '.2f')` applies to the (here exact) scaled value. -/
def roundHalfEven (q : ℚ) : ℤ :=
  let f := ⌊q⌋
  let frac := q - (f : ℚ)
  if frac < 1 / 2 then f
  else if 1 / 2 < frac then f + 1
  else if f % 2 = 0 then f else f + 1

/-- Renders `q` with exactly two decimal places, as Python's `f"{q:.2f}"`
does on the exactly-representable values the claims exercise. -/
def fmtTwoDec (q : ℚ) : String :=
  let n := roundHalfEven (q * 100)
  let sgn := if n < 0 then "-" else ""
  let m := n.natAbs
  let r := m % 100
  sgn ++ toString (m / 100) ++ "." ++ (if r < 10 then "0" ++ toString r else toString r)

/-- Embeds the scaling branch of the formatting loop in
`get_financial_summary` (`src/utils.py` lines 417-424). -/
def summaryScale (v : ℚ) : String :=
  if 1000000000 < v then "$" ++ fmtTwoDec (v / 1000000000) ++ "B"
  else if 1000000 < v then "$" ++ fmtTwoDec (v / 1000000) ++ "M"
  else if 1000 < v then "$" ++ fmtTwoDec (v / 1000) ++ "K"
  else "$" ++ fmtTwoDec v

/-- Embeds `format_large_number` (`src/utils.py` lines 481-501). -/
def format_large_number (num : PyVal) : String :=
  match num with
  | .pint n =>
      if 1000000000 < (n : ℚ) then "$" ++ fmtTwoDec ((n : ℚ) / 1000000000) ++ "B"
      else if 1000000 < (n : ℚ) then "$" ++ fmtTwoDec ((n : ℚ) / 1000000) ++ "M"
      else if 1000 < (n : ℚ) then "$" ++ fmtTwoDec ((n : ℚ) / 1000) ++ "K"
      else "$" ++ fmtTwoDec (n : ℚ)
  | .pfloat q =>
      if 1000000000 < q then "$" ++ fmtTwoDec (q / 1000000000) ++ "B"
      else if 1000000 < q then "$" ++ fmtTwoDec (q / 1000000) ++ "M"
      else if 1000 < q then "$" ++ fmtTwoDec (q / 1000) ++ "K"
      else "$" ++ fmtTwoDec q
  | _ => "N/A"

/-- The keys excluded from currency scaling in the formatting loop
(`src/utils.py` line 416). -/
def ratioKeys : List String :=
  ["dividend_yield", "pe_ratio", "forward_pe", "peg_ratio",
   "price_to_book", "beta", "enterprise_to_revenue", "enterprise_to_ebitda"]

/-- One pass of the formatting loop (`src/utils.py` lines 415-426) on
the entry with key `k` and value `v`. -/
def formatEntry (k : String) (v : PyVal) : PyVal :=
  if isNumber v && !(ratioKeys.contains k) then .pstr (summaryScale (toRat v))
  else if isFloat v && ratioKeys.contains k then .pstr (fmtTwoDec (toRat v))
  else v

/-- The display record assembled by `get_financial_summary`
(`src/utils.py` lines 385-412), before the formatting loop. -/
def buildSummary (info : List (String × PyVal)) : List (String × PyVal) :=
  [("name", dictGet info "shortName" (.pstr "N/A")),
   ("sector", dictGet info "sector" (.pstr "N/A")),
   ("industry", dictGet info "industry" (.pstr "N/A")),
   ("market_cap", dictGet info "marketCap" (.pstr "N/A")),
   ("current_price", dictGet info "currentPrice" (dictGet info "regularMarketPrice" (.pstr "N/A"))),
   ("open", dictGet info "open" (.pstr "N/A")),
   ("high", dictGet info "dayHigh" (.pstr "N/A")),
   ("low", dictGet info "dayLow" (.pstr "N/A")),
   ("previous_close", dictGet info "previousClose" (.pstr "N/A")),
   ("volume", dictGet info "volume" (.pstr "N/A")),
   ("avg_volume", dictGet info "averageVolume" (.pstr "N/A")),
   ("52w_high", dictGet info "fiftyTwoWeekHigh" (.pstr "N/A")),
   ("52w_low", dictGet info "fiftyTwoWeekLow" (.pstr "N/A")),
   ("pe_ratio", dictGet info "trailingPE" .pnone),
   ("forward_pe", dictGet info "forwardPE" .pnone),
   ("peg_ratio", dictGet info "pegRatio" .pnone),
   ("price_to_book", dictGet info "priceToBook" .pnone),
   ("enterprise_value", dictGet info "enterpriseValue" .pnone),
   ("enterprise_to_revenue", dictGet info "enterpriseToRevenue" .pnone),
   ("enterprise_to_ebitda", dictGet info "enterpriseToEbitda" .pnone),
   ("beta", dictGet info "beta" (.pstr "N/A")),
   ("dividend_rate", dictGet info "dividendRate" (.pstr "N/A")),
   ("dividend_yield",
     if pyTruthy (dictGet info "dividendYield" .pnone) then
       pyMul100 (dictGet info "dividendYield" (.pstr "N/A"))
     else .pstr "N/A"),
   ("target_mean_price", dictGet info "targetMeanPrice" (.pstr "N/A")),
   ("recommendation", dictGet info "recommendationKey" (.pstr "N/A")),
   ("esg_score", dictGet info "esgScore" (.pstr "N/A"))]

/-- Embeds `get_financial_summary` (`src/utils.py` lines 362-428): the
provider result is `None` or a raw dict; a falsy (absent or empty) dict
yields `None`, otherwise the display record, with the formatting loop
applied to every entry. -/
def get_financial_summary (info : Option (List (String × PyVal))) : Option (List (String × PyVal)) :=
  match info with
  | none => none
  | some d =>
    if d.isEmpty then none
    else some ((buildSummary d).map (fun p => (p.1, formatEntry p.1 p.2)))

/-! ### Favorites store (`src/database.py`)

The three SQLite tables are modelled by lists; each repository function
takes the store as explicit state and returns the `(ok, message)` pair
the source returns together with the post-state.  A session closed
without commit leaves the store unchanged. -/

structure UserRec where
  id : ℕ
  username : String
  email : String
  password_hash : String
deriving DecidableEq, Repr

structure StockRec where
  id : ℕ
  symbol : String
  name : Option String
deriving DecidableEq, Repr

structure Store where
  users : List UserRec
  stocks : List StockRec
  favorites : List (ℕ × ℕ)
deriving DecidableEq, Repr

/-- `session.query(User).filter_by(id=user_id).first()`. -/
def findUser (st : Store) (user_id : ℕ) : Option UserRec :=
  st.users.find? (fun u => u.id == user_id)

/-- `session.query(Stock).filter_by(symbol=symbol).first()`. -/
def findStockBySymbol (st : Store) (symbol : String) : Option StockRec :=
  st.stocks.find? (fun s => s.symbol == symbol)

/-- Resolution of a `stock_id` foreign key against the stocks table. -/
def findStockById (st : Store) (stock_id : ℕ) : Option StockRec :=
  st.stocks.find? (fun s => s.id == stock_id)

/-- The ORM relationship `user.favorites`: the stocks joined to the
user through the `favorites` association table. -/
def userFavoriteStocks (st : Store) (user_id : ℕ) : List StockRec :=
  (st.favorites.filter (fun p => p.1 == user_id)).filterMap
    (fun p => findStockById st p.2)

/-- A fresh autoincrement id for a lazily created stock row. -/
def nextStockId (st : Store) : ℕ :=
  (st.stocks.map (·.id)).foldr max 0 + 1

/-- Embeds `add_favorite_stock` (`src/database.py` lines 105-139).  The
lazily added `Stock` row is only visible if the session commits; on the
already-favorited early return the session closes without commit, so
the store is unchanged. -/
def add_favorite_stock (st : Store) (user_id : ℕ) (symbol : String)
    (company_name : Option String) : (Bool × String) × Store :=
  match findUser st user_id with
  | none => ((false, "User not found."), st)
  | some _ =>
    let stockId :=
      match findStockBySymbol st symbol with
      | some s => s.id
      | none => nextStockId st
    let stocksAfter :=
      match findStockBySymbol st symbol with
      | some _ => st.stocks
      | none => st.stocks ++ [⟨nextStockId st, symbol, company_name⟩]
    if (userFavoriteStocks st user_id).any (fun s => s.symbol == symbol) then
      ((false, symbol ++ " is already in your favorites."), st)
    else
      ((true, symbol ++ " added to favorites."),
        { st with stocks := stocksAfter,
                  favorites := st.favorites ++ [(user_id, stockId)] })

/-- Embeds `remove_favorite_stock` (`src/database.py` lines 141-178). -/
def remove_favorite_stock (st : Store) (user_id : ℕ) (symbol : String) :
    (Bool × String) × Store :=
  match findUser st user_id with
  | none => ((false, "User not found."), st)
  | some _ =>
    match findStockBySymbol st symbol with
    | none => ((false, "Stock " ++ symbol ++ " not found."), st)
    | some stock =>
      if (userFavoriteStocks st user_id).any (fun s => s.symbol == symbol) then
        ((true, symbol ++ " removed from favorites."),
          { st with favorites :=
              st.favorites.filter (fun p => !(p.1 == user_id && p.2 == stock.id)) })
      else
        ((false, symbol ++ " is not in your favorites."), st)

/-- Embeds `get_user_favorites` (`src/database.py` lines 180-194). -/
def get_user_favorites (st : Store) (user_id : ℕ) : List StockRec :=
  match findUser st user_id with
  | none => []
  | some _ => userFavoriteStocks st user_id

/-- The integrity properties the SQLite schema enforces: primary-key
uniqueness of stock ids, `unique=True` on stock symbols, at most one
row per favorites pair, and foreign-key integrity of `stock_id`. -/
structure StoreWF (st : Store) : Prop where
  stockIds : (st.stocks.map (·.id)).Nodup
  stockSymbols : (st.stocks.map (·.symbol)).Nodup
  favsNodup : st.favorites.Nodup
  favStockExists : ∀ p ∈ st.favorites, ∃ s ∈ st.stocks, s.id = p.2

/-! ### Reference definitions taken from the specification's wording

These two definitions follow the spec's words, for comparison with the
source-derived definitions above. -/

/-- Modelled from the spec wording of C3: the seeded recurrence
`ema 0 = x 0` and `ema t = α * x t + (1 - α) * ema (t-1)`. -/
def emaSpec (α : ℚ) (xs : List ℚ) : ℕ → ℚ
  | 0 => xs.getD 0 0
  | t + 1 => α * xs.getD (t + 1) 0 + (1 - α) * emaSpec α xs t

/-- The `adjust=False` recurrence re-seeded at `prev`: the value the
tail of `ewmAdjFalseAux` produces `t` steps in. -/
def emaFrom (α prev : ℚ) (ys : List ℚ) : ℕ → ℚ
  | 0 => α * ys.getD 0 0 + (1 - α) * prev
  | t + 1 => α * ys.getD (t + 1) 0 + (1 - α) * emaFrom α prev ys t

/-! ## Helper lemmas: rolling windows -/

lemma rollingMean_length (w : ℕ) (xs : List ℚ) :
    (rollingMean w xs).length = xs.length := by
  simp [rollingMean]

lemma rollingVar_length (ddof w : ℕ) (xs : List ℚ) :
    (rollingVar ddof w xs).length = xs.length := by
  simp [rollingVar]

lemma rollingMean_getElem? (w : ℕ) (xs : List ℚ) (i : ℕ) (h : i < xs.length) :
    (rollingMean w xs)[i]? =
      some (if i + 1 < w then none else some ((windowAt w i xs).sum / (w : ℚ))) := by
  simp [rollingMean, List.getElem?_range h]

lemma rollingVar_getElem? (ddof w : ℕ) (xs : List ℚ) (i : ℕ) (h : i < xs.length) :
    (rollingVar ddof w xs)[i]? =
      some (if i + 1 < w then none
        else some (((windowAt w i xs).map
            (fun x => (x - (windowAt w i xs).sum / (w : ℚ)) ^ 2)).sum /
          ((w : ℚ) - (ddof : ℚ)))) := by
  simp [rollingVar, List.getElem?_range h]

lemma drop_map_sum (g : ℚ → ℚ) (ys : List ℚ) : ∀ l : ℕ,
    ((ys.drop l).map g).sum = ∑ j ∈ Finset.range (ys.length - l), g (ys.getD (l + j) 0) := by
  induction ys with
  | nil => intro l; simp
  | cons y t ih =>
    intro l
    cases l with
    | zero =>
      have h0 := ih 0
      simp only [List.drop_zero, Nat.sub_zero, Nat.zero_add] at h0 ⊢
      simp only [List.map_cons, List.sum_cons, List.length_cons]
      rw [Finset.sum_range_succ']
      simp only [List.getD_cons_succ, List.getD_cons_zero]
      rw [← h0]; ring
    | succ l =>
      simp only [List.drop_succ_cons, List.length_cons, Nat.succ_sub_succ]
      rw [ih l]
      refine Finset.sum_congr rfl fun j _ => ?_
      rw [show l + 1 + j = (l + j) + 1 by omega, List.getD_cons_succ]

lemma length_windowAt (w i : ℕ) (xs : List ℚ) (hw : w ≤ i + 1) (hi : i < xs.length) :
    (windowAt w i xs).length = w := by
  simp only [windowAt, List.length_drop, List.length_take]
  omega

lemma windowAt_map_sum (g : ℚ → ℚ) (w i : ℕ) (xs : List ℚ)
    (hw : w ≤ i + 1) (hi : i < xs.length) :
    ((windowAt w i xs).map g).sum =
      ∑ j ∈ Finset.range w, g (xs.getD (i + 1 - w + j) 0) := by
  unfold windowAt
  rw [drop_map_sum g (xs.take (i + 1)) (i + 1 - w)]
  have hlen : (xs.take (i + 1)).length = i + 1 := by
    simp [List.length_take]; omega
  rw [hlen, show i + 1 - (i + 1 - w) = w by omega]
  refine Finset.sum_congr rfl fun j hj => ?_
  have hj' : j < w := Finset.mem_range.mp hj
  have hlt : i + 1 - w + j < i + 1 := by omega
  rw [List.getD_eq_getElem?_getD, List.getD_eq_getElem?_getD,
    List.getElem?_take, if_pos hlt]

lemma windowAt_sum (w i : ℕ) (xs : List ℚ) (hw : w ≤ i + 1) (hi : i < xs.length) :
    (windowAt w i xs).sum = ∑ j ∈ Finset.range w, xs.getD (i + 1 - w + j) 0 := by
  have := windowAt_map_sum id w i xs hw hi
  simpa using this

lemma windowAt_sublist (w i : ℕ) (xs : List ℚ) : (windowAt w i xs).Sublist xs :=
  ((xs.take (i + 1)).drop_sublist (i + 1 - w)).trans (xs.take_sublist (i + 1))

lemma rollingMean_nonneg (w : ℕ) (xs : List ℚ) (i : ℕ) (v : ℚ)
    (hnn : ∀ x ∈ xs, 0 ≤ x)
    (h : (rollingMean w xs)[i]? = some (some v)) : 0 ≤ v := by
  by_cases hi : i < xs.length
  · rw [rollingMean_getElem? w xs i hi] at h
    by_cases hw : i + 1 < w
    · simp [hw] at h
    · rw [if_neg hw] at h
      have hv : v = (windowAt w i xs).sum / (w : ℚ) := by
        simpa using h.symm
      subst hv
      apply div_nonneg
      · exact List.sum_nonneg fun x hx =>
          hnn x ((windowAt_sublist w i xs).subset hx)
      · positivity
  · have : (rollingMean w xs)[i]? = none := by
      apply List.getElem?_eq_none
      rw [rollingMean_length]; omega
    rw [this] at h; exact absurd h (by simp)

/-! ## Helper lemmas: zipWith access and membership -/

lemma zipWith_getElem?_eq (f : ℚ → ℚ → ℚ) :
    ∀ (as bs : List ℚ) (t : ℕ), t < as.length → t < bs.length →
      (List.zipWith f as bs)[t]? = some (f (as.getD t 0) (bs.getD t 0)) := by
  intro as
  induction as with
  | nil => intro bs t h _; simp at h
  | cons a as ih =>
    intro bs t ha hb
    cases bs with
    | nil => simp at hb
    | cons b bs =>
      cases t with
      | zero => simp
      | succ t =>
        simp only [List.zipWith_cons_cons, List.getElem?_cons_succ,
          List.getD_cons_succ]
        exact ih bs t (by simpa using ha) (by simpa using hb)

lemma mem_zipWith_imp (f : ℚ → ℚ → ℚ) :
    ∀ (as bs : List ℚ) (x : ℚ), x ∈ List.zipWith f as bs →
      ∃ a ∈ as, ∃ b ∈ bs, x = f a b := by
  intro as
  induction as with
  | nil => intro bs x hx; simp at hx
  | cons a as ih =>
    intro bs x hx
    cases bs with
    | nil => simp at hx
    | cons b bs =>
      simp only [List.zipWith_cons_cons, List.mem_cons] at hx
      rcases hx with rfl | hx
      · exact ⟨a, by simp, b, by simp, rfl⟩
      · obtain ⟨a', ha', b', hb', rfl⟩ := ih bs x hx
        exact ⟨a', by simp [ha'], b', by simp [hb'], rfl⟩

/-! ## Helper lemmas: the gain/loss series -/

lemma gains_length (closes : List ℚ) : (gains closes).length = closes.length := by
  cases closes with
  | nil => simp [gains]
  | cons c rest => simp [gains]

lemma losses_length (closes : List ℚ) : (losses closes).length = closes.length := by
  cases closes with
  | nil => simp [losses]
  | cons c rest => simp [losses]

lemma gains_nonneg (closes : List ℚ) : ∀ x ∈ gains closes, 0 ≤ x := by
  intro x hx
  cases closes with
  | nil => simp [gains] at hx
  | cons c rest =>
    simp only [gains, List.mem_cons] at hx
    rcases hx with rfl | hx
    · exact le_refl 0
    · obtain ⟨a, _, b, _, rfl⟩ := mem_zipWith_imp _ _ _ _ hx
      exact le_max_right _ _

lemma losses_nonneg (closes : List ℚ) : ∀ x ∈ losses closes, 0 ≤ x := by
  intro x hx
  cases closes with
  | nil => simp [losses] at hx
  | cons c rest =>
    simp only [losses, List.mem_cons] at hx
    rcases hx with rfl | hx
    · exact le_refl 0
    · obtain ⟨a, _, b, _, rfl⟩ := mem_zipWith_imp _ _ _ _ hx
      exact le_max_right _ _

/-! ## Helper lemmas: exponential moving averages -/

lemma ewmAdjFalseAux_length (α : ℚ) :
    ∀ (ys : List ℚ) (p : ℚ), (ewmAdjFalseAux α p ys).length = ys.length := by
  intro ys
  induction ys with
  | nil => intro p; simp [ewmAdjFalseAux]
  | cons y rest ih => intro p; simp [ewmAdjFalseAux, ih]

lemma ewmAdjFalse_length (span : ℕ) (xs : List ℚ) :
    (ewmAdjFalse span xs).length = xs.length := by
  cases xs with
  | nil => simp [ewmAdjFalse]
  | cons x rest => simp [ewmAdjFalse, ewmAdjFalseAux_length]

lemma emaFrom_cons (α p y : ℚ) (rest : List ℚ) :
    ∀ t : ℕ, emaFrom α p (y :: rest) (t + 1) = emaFrom α (α * y + (1 - α) * p) rest t := by
  intro t
  induction t with
  | zero => simp [emaFrom]
  | succ t ih =>
    show α * (y :: rest).getD (t + 2) 0 + (1 - α) * emaFrom α p (y :: rest) (t + 1) = _
    rw [ih, List.getD_cons_succ]
    rfl

lemma ewmAdjFalseAux_getElem? (α : ℚ) :
    ∀ (ys : List ℚ) (p : ℚ) (t : ℕ), t < ys.length →
      (ewmAdjFalseAux α p ys)[t]? = some (emaFrom α p ys t) := by
  intro ys
  induction ys with
  | nil => intro p t h; simp at h
  | cons y rest ih =>
    intro p t h
    cases t with
    | zero => simp [ewmAdjFalseAux, emaFrom]
    | succ t =>
      have hred : ewmAdjFalseAux α p (y :: rest) =
          (α * y + (1 - α) * p) :: ewmAdjFalseAux α (α * y + (1 - α) * p) rest := rfl
      rw [hred, List.getElem?_cons_succ, ih _ t (by simpa using h), emaFrom_cons]

lemma emaSpec_cons (α x : ℚ) (rest : List ℚ) :
    ∀ t : ℕ, emaSpec α (x :: rest) (t + 1) = emaFrom α x rest t := by
  intro t
  induction t with
  | zero => simp [emaSpec, emaFrom]
  | succ t ih =>
    show α * (x :: rest).getD (t + 2) 0 + (1 - α) * emaSpec α (x :: rest) (t + 1) = _
    rw [ih, List.getD_cons_succ]
    rfl

lemma ewmAdjFalse_getElem? (span : ℕ) (xs : List ℚ) (t : ℕ) (h : t < xs.length) :
    (ewmAdjFalse span xs)[t]? = some (emaSpec (alphaOfSpan span) xs t) := by
  cases xs with
  | nil => simp at h
  | cons x rest =>
    cases t with
    | zero => simp [ewmAdjFalse, emaSpec]
    | succ t =>
      have hred : ewmAdjFalse span (x :: rest) =
          x :: ewmAdjFalseAux (alphaOfSpan span) x rest := rfl
      rw [hred, List.getElem?_cons_succ,
        ewmAdjFalseAux_getElem? _ rest x t (by simpa using h), emaSpec_cons]

lemma macdLine_length (closes : List ℚ) : (macdLine closes).length = closes.length := by
  simp [macdLine, ewmAdjFalse_length]

lemma signalLine_length (closes : List ℚ) : (signalLine closes).length = closes.length := by
  simp [signalLine, ewmAdjFalse_length, macdLine_length]

lemma macdHistogram_length (closes : List ℚ) :
    (macdHistogram closes).length = closes.length := by
  simp [macdHistogram, macdLine_length, signalLine_length]

lemma rsiColumn_length (closes : List ℚ) : (rsiColumn closes).length = closes.length := by
  simp [rsiColumn, avgGain, avgLoss, rollingMean_length, gains_length, losses_length]

/-! ## Helper lemmas: the favorites store -/

lemma le_foldr_max (l : List ℕ) : ∀ a ∈ l, a ≤ l.foldr max 0 := by
  induction l with
  | nil => simp
  | cons x t ih =>
    intro a ha
    rcases List.mem_cons.mp ha with rfl | ha
    · exact le_max_left _ _
    · exact le_trans (ih a ha) (le_max_right _ _)

lemma stockId_lt_next (st : Store) (r : StockRec) (hr : r ∈ st.stocks) :
    r.id < nextStockId st := by
  have : r.id ≤ (st.stocks.map (·.id)).foldr max 0 :=
    le_foldr_max _ _ (List.mem_map_of_mem _ hr)
  unfold nextStockId
  omega

lemma find?_id_eq_of_nodup :
    ∀ stocks : List StockRec, (stocks.map (·.id)).Nodup →
      ∀ s0 ∈ stocks, stocks.find? (fun x => x.id == s0.id) = some s0 := by
  intro stocks
  induction stocks with
  | nil => intro _ s0 h; simp at h
  | cons x t ih =>
    intro hnd s0 hmem
    rw [List.map_cons, List.nodup_cons] at hnd
    rcases List.mem_cons.mp hmem with rfl | hmem
    · simp [List.find?_cons]
    · have hx : (x.id == s0.id) = false := by
        simp only [beq_eq_false_iff_ne, ne_eq]
        intro heq
        exact hnd.1 (by rw [heq]; exact List.mem_map_of_mem _ hmem)
      simp only [List.find?_cons, hx]
      exact ih hnd.2 s0 hmem

lemma findStockById_of_nodup (st : Store)
    (hids : (st.stocks.map (·.id)).Nodup) (s0 : StockRec) (hmem : s0 ∈ st.stocks) :
    findStockById st s0.id = some s0 :=
  find?_id_eq_of_nodup st.stocks hids s0 hmem

lemma find?_append_of_some {α : Type} (l₁ l₂ : List α) (p : α → Bool) (a : α)
    (h : l₁.find? p = some a) : (l₁ ++ l₂).find? p = some a := by
  simp [List.find?_append, h]

lemma find?_append_of_none {α : Type} (l₁ l₂ : List α) (p : α → Bool)
    (h : l₁.find? p = none) : (l₁ ++ l₂).find? p = l₂.find? p := by
  simp [List.find?_append, h]

/-- After a successful insert, the favorite-symbol list gains exactly
the new symbol at its end; users are untouched. -/
lemma add_favorite_success (st : Store) (u : ℕ) (s : String) (nm : Option String)
    (usr : UserRec) (wf : StoreWF st) (husr : findUser st u = some usr)
    (hany : (userFavoriteStocks st u).any (fun r => r.symbol == s) = false) :
    ∃ st1, add_favorite_stock st u s nm = ((true, s ++ " added to favorites."), st1) ∧
      st1.users = st.users ∧
      (userFavoriteStocks st1 u).map (·.symbol) =
        (userFavoriteStocks st u).map (·.symbol) ++ [s] := by
  cases hstock : findStockBySymbol st s with
  | some s0 =>
    have hs0sym : s0.symbol = s := by
      have := List.find?_some hstock
      simpa using this
    have hs0mem : s0 ∈ st.stocks := List.mem_of_find?_eq_some hstock
    refine ⟨{ st with favorites := st.favorites ++ [(u, s0.id)] }, ?_, rfl, ?_⟩
    · simp only [add_favorite_stock, husr, hstock, hany]
      rfl
    · show ((((st.favorites ++ [(u, s0.id)]).filter (fun p => p.1 == u)).filterMap
        (fun p => findStockById { st with favorites := st.favorites ++ [(u, s0.id)] } p.2)).map
          (·.symbol)) = _
      have hsame : ∀ sid : ℕ,
          findStockById { st with favorites := st.favorites ++ [(u, s0.id)] } sid =
            findStockById st sid := fun _ => rfl
      simp only [hsame, List.filter_append, List.filterMap_append, List.map_append]
      have hfilt : ([(u, s0.id)].filter (fun p => p.1 == u)) = [(u, s0.id)] := by simp
      rw [hfilt]
      have hfind : findStockById st s0.id = some s0 :=
        findStockById_of_nodup st wf.stockIds s0 hs0mem
      simp [userFavoriteStocks, hfind, hs0sym]
  | none =>
    have hfresh : ∀ r ∈ st.stocks, (r.id == nextStockId st) = false := by
      intro r hr
      have := stockId_lt_next st r hr
      simp only [beq_eq_false_iff_ne, ne_eq]
      omega
    refine ⟨{ st with
        stocks := st.stocks ++ [⟨nextStockId st, s, nm⟩],
        favorites := st.favorites ++ [(u, nextStockId st)] }, ?_, rfl, ?_⟩
    · simp only [add_favorite_stock, husr, hstock, hany]
      rfl
    · set st1 : Store := { st with
        stocks := st.stocks ++ [⟨nextStockId st, s, nm⟩],
        favorites := st.favorites ++ [(u, nextStockId st)] } with hst1
      show (((st.favorites ++ [(u, nextStockId st)]).filter (fun p => p.1 == u)).filterMap
        (fun p => findStockById st1 p.2)).map (·.symbol) = _
      rw [List.filter_append, List.filterMap_append, List.map_append]
      have hfilt : ([(u, nextStockId st)].filter (fun p => p.1 == u)) =
          [(u, nextStockId st)] := by simp
      rw [hfilt]
      have hold : ((st.favorites.filter (fun p => p.1 == u)).filterMap
          (fun p => findStockById st1 p.2)) = userFavoriteStocks st u := by
        unfold userFavoriteStocks
        apply List.filterMap_congr
        intro p hp
        have hpfav : p ∈ st.favorites := (List.mem_filter.mp hp).1
        obtain ⟨r, hrmem, hrid⟩ := wf.favStockExists p hpfav
        cases hcase : st.stocks.find? (fun x => x.id == p.2) with
        | none =>
          exfalso
          have := List.find?_eq_none.mp hcase r hrmem
          simp [hrid] at this
        | some r' =>
          show (st1.stocks.find? fun x => x.id == p.2) =
            (st.stocks.find? fun x => x.id == p.2)
          have hstocks1 : st1.stocks = st.stocks ++ [⟨nextStockId st, s, nm⟩] := rfl
          rw [hstocks1, find?_append_of_some _ _ _ _ hcase, hcase]
      rw [hold]
      have hnew : findStockById st1 (nextStockId st) =
          some ⟨nextStockId st, s, nm⟩ := by
        have hstocks1 : st1.stocks = st.stocks ++ [⟨nextStockId st, s, nm⟩] := rfl
        unfold findStockById
        rw [hstocks1]
        have h1 : st.stocks.find? (fun x => x.id == nextStockId st) = none :=
          List.find?_eq_none.mpr (fun x hx => by simp [hfresh x hx])
        rw [find?_append_of_none _ _ _ h1]
        simp
      simp [hnew]

/-! ## Claim theorems -/

lemma rollingMean_spec (w : ℕ) (xs : List ℚ) (i : ℕ) (hi : i < xs.length) :
    (i + 1 < w → (rollingMean w xs)[i]? = some none) ∧
    (w ≤ i + 1 → (rollingMean w xs)[i]? =
      some (some ((∑ j ∈ Finset.range w, xs.getD (i + 1 - w + j) 0) / (w : ℚ)))) := by
  constructor
  · intro h
    rw [rollingMean_getElem? w xs i hi, if_pos h]
  · intro h
    rw [rollingMean_getElem? w xs i hi, if_neg (by omega), windowAt_sum w i xs h hi]

/-- C1: for every price series of length at least 200, the MA20, MA50
and MA200 columns of `calculate_technical_indicators` are undefined
(`none`) strictly before indices 19, 49 and 199 respectively, and from
those indices onward each cell is the arithmetic mean of the trailing
20/50/200 closes ending at that index. -/
theorem C1_moving_averages (ps : List PricePoint) (_h200 : 200 ≤ ps.length)
    (i : ℕ) (hi : i < ps.length) :
    ((i < 19 → (ctiFrame ps).ma20[i]? = some none) ∧
      (19 ≤ i → (ctiFrame ps).ma20[i]? = some (some
        ((∑ j ∈ Finset.range 20, (ps.map (·.close)).getD (i - 19 + j) 0) / (20 : ℚ))))) ∧
    ((i < 49 → (ctiFrame ps).ma50[i]? = some none) ∧
      (49 ≤ i → (ctiFrame ps).ma50[i]? = some (some
        ((∑ j ∈ Finset.range 50, (ps.map (·.close)).getD (i - 49 + j) 0) / (50 : ℚ))))) ∧
    ((i < 199 → (ctiFrame ps).ma200[i]? = some none) ∧
      (199 ≤ i → (ctiFrame ps).ma200[i]? = some (some
        ((∑ j ∈ Finset.range 200, (ps.map (·.close)).getD (i - 199 + j) 0) / (200 : ℚ))))) := by
  have hlen : i < (ps.map (·.close)).length := by simpa using hi
  have hma20 : (ctiFrame ps).ma20 = rollingMean 20 (ps.map (·.close)) := rfl
  have hma50 : (ctiFrame ps).ma50 = rollingMean 50 (ps.map (·.close)) := rfl
  have hma200 : (ctiFrame ps).ma200 = rollingMean 200 (ps.map (·.close)) := rfl
  refine ⟨⟨?_, ?_⟩, ⟨?_, ?_⟩, ?_, ?_⟩
  · intro h
    rw [hma20]
    exact (rollingMean_spec 20 _ i hlen).1 (by omega)
  · intro h
    rw [hma20, (rollingMean_spec 20 _ i hlen).2 (by omega)]
    norm_num [show i + 1 - 20 = i - 19 from by omega]
  · intro h
    rw [hma50]
    exact (rollingMean_spec 50 _ i hlen).1 (by omega)
  · intro h
    rw [hma50, (rollingMean_spec 50 _ i hlen).2 (by omega)]
    norm_num [show i + 1 - 50 = i - 49 from by omega]
  · intro h
    rw [hma200]
    exact (rollingMean_spec 200 _ i hlen).1 (by omega)
  · intro h
    rw [hma200, (rollingMean_spec 200 _ i hlen).2 (by omega)]
    norm_num [show i + 1 - 200 = i - 199 from by omega]

/-- Witness for C1 at a concrete 200-point series and the indices 18
and 199. -/
theorem C1_moving_averages_witness :
    (ctiFrame (List.replicate 200 ⟨1, 1, 1, 1, 1⟩)).ma20[18]? = some none ∧
    (ctiFrame (List.replicate 200 ⟨1, 1, 1, 1, 1⟩)).ma200[199]? = some (some
      ((∑ j ∈ Finset.range 200,
        ((List.replicate 200 (⟨1, 1, 1, 1, 1⟩ : PricePoint)).map (·.close)).getD
          (199 - 199 + j) 0) / (200 : ℚ))) :=
  ⟨((C1_moving_averages (List.replicate 200 ⟨1, 1, 1, 1, 1⟩)
      (by rw [List.length_replicate]) 18
      (by rw [List.length_replicate]; norm_num)).1).1 (by norm_num),
   ((C1_moving_averages (List.replicate 200 ⟨1, 1, 1, 1, 1⟩)
      (by rw [List.length_replicate]) 199
      (by rw [List.length_replicate]; norm_num)).2.2).2 (by norm_num)⟩

/-- C2 counterexample: at the series of nineteen 0-closes followed by a
20-close, the sample variance (the source's pandas default, ddof 1) of
the first full window is 20, while the population variance (ddof 0)
the claim asserts is 19; consequently the Upper_Band value the code
produces differs from the one the claim asserts at index 19. -/
theorem C2_population_std_counterexample :
    (rollingVar 1 20 (List.replicate 19 (0 : ℚ) ++ [20]))[19]? = some (some 20) ∧
    (rollingVar 0 20 (List.replicate 19 (0 : ℚ) ++ [20]))[19]? = some (some 19) ∧
    ∀ u u' : ℝ, upperBandVal (List.replicate 19 (0 : ℚ) ++ [20]) 19 u →
      specUpperBandVal (List.replicate 19 (0 : ℚ) ++ [20]) 19 u' → u ≠ u' := by
  have hlen19 : (19 : ℕ) < (List.replicate 19 (0 : ℚ) ++ [20]).length := by simp
  have hwin : windowAt 20 19 (List.replicate 19 (0 : ℚ) ++ [20]) =
      List.replicate 19 (0 : ℚ) ++ [20] := by
    show ((List.replicate 19 (0 : ℚ) ++ [20]).take 20).drop 0 =
      List.replicate 19 (0 : ℚ) ++ [20]
    rw [List.drop_zero]
    have hl : (List.replicate 19 (0 : ℚ) ++ [20]).length = 20 := by simp
    rw [← hl, List.take_length]
  have hsum20 : (List.replicate 19 (0 : ℚ) ++ [20]).sum = 20 := by
    simp [List.sum_append, List.sum_replicate]
  have hmean : (rollingMean 20 (List.replicate 19 (0 : ℚ) ++ [20]))[19]? =
      some (some 1) := by
    rw [rollingMean_getElem? 20 _ 19 hlen19, if_neg (by norm_num), hwin, hsum20]
    norm_num
  have hv1 : (rollingVar 1 20 (List.replicate 19 (0 : ℚ) ++ [20]))[19]? =
      some (some 20) := by
    rw [rollingVar_getElem? 1 20 _ 19 hlen19, if_neg (by norm_num), hwin, hsum20]
    simp only [List.map_append, List.map_replicate, List.sum_append,
      List.sum_replicate, List.map_cons, List.map_nil, List.sum_cons,
      List.sum_nil]
    norm_num
  have hv0 : (rollingVar 0 20 (List.replicate 19 (0 : ℚ) ++ [20]))[19]? =
      some (some 19) := by
    rw [rollingVar_getElem? 0 20 _ 19 hlen19, if_neg (by norm_num), hwin, hsum20]
    simp only [List.map_append, List.map_replicate, List.sum_append,
      List.sum_replicate, List.map_cons, List.map_nil, List.sum_cons,
      List.sum_nil]
    norm_num
  refine ⟨hv1, hv0, ?_⟩
  rintro u u' ⟨m, v, hm, hv, rfl⟩ ⟨m', v', hm', hv', rfl⟩
  rw [hmean] at hm hm'
  rw [hv1] at hv
  rw [hv0] at hv'
  simp only [Option.some.injEq] at hm hm' hv hv'
  subst hm hm' hv hv'
  have hlt : Real.sqrt ((19 : ℚ) : ℝ) < Real.sqrt ((20 : ℚ) : ℝ) := by
    apply Real.sqrt_lt_sqrt <;> norm_num
  intro heq
  rw [show (((1 : ℚ) : ℝ)) = (1 : ℝ) by norm_num] at heq
  nlinarith [heq, hlt]

/-- C2 amended: wherever the 20-window is full, the Bollinger mid-line
is the trailing 20-close mean and the band half-width is twice the
sample standard deviation (ddof 1, the pandas default the source
uses), not the population one: Upper_Band and Lower_Band are the mean
plus/minus twice the square root of the trailing sample variance. -/
theorem C2_bollinger_sample_std (ps : List PricePoint) (i : ℕ)
    (h19 : 19 ≤ i) (hi : i < ps.length) :
    ∃ m v : ℚ,
      (ctiFrame ps).sma20[i]? = some (some m) ∧
      (ctiFrame ps).var20[i]? = some (some v) ∧
      m = (∑ j ∈ Finset.range 20, (ps.map (·.close)).getD (i - 19 + j) 0) / (20 : ℚ) ∧
      v = (∑ j ∈ Finset.range 20,
            ((ps.map (·.close)).getD (i - 19 + j) 0 - m) ^ 2) / (19 : ℚ) ∧
      (∀ u : ℝ, upperBandVal (ps.map (·.close)) i u ↔
        u = (m : ℝ) + 2 * Real.sqrt (v : ℝ)) ∧
      (∀ u : ℝ, lowerBandVal (ps.map (·.close)) i u ↔
        u = (m : ℝ) - 2 * Real.sqrt (v : ℝ)) := by
  have hlen : i < (ps.map (·.close)).length := by simpa using hi
  have hw : (20 : ℕ) ≤ i + 1 := by omega
  have hsum : (windowAt 20 i (ps.map (·.close))).sum =
      ∑ j ∈ Finset.range 20, (ps.map (·.close)).getD (i - 19 + j) 0 := by
    rw [windowAt_sum 20 i _ hw hlen, show i + 1 - 20 = i - 19 from by omega]
  have hmean : (ctiFrame ps).sma20[i]? = some (some
      ((∑ j ∈ Finset.range 20, (ps.map (·.close)).getD (i - 19 + j) 0) / (20 : ℚ))) := by
    have : (ctiFrame ps).sma20 = rollingMean 20 (ps.map (·.close)) := rfl
    rw [this, (rollingMean_spec 20 _ i hlen).2 hw,
      show i + 1 - 20 = i - 19 from by omega]
    norm_num
  have hvar : (ctiFrame ps).var20[i]? = some (some
      ((∑ j ∈ Finset.range 20,
        ((ps.map (·.close)).getD (i - 19 + j) 0 -
          (∑ j ∈ Finset.range 20, (ps.map (·.close)).getD (i - 19 + j) 0) / (20 : ℚ)) ^ 2) /
        (19 : ℚ))) := by
    have hfr : (ctiFrame ps).var20 = rollingVar 1 20 (ps.map (·.close)) := rfl
    rw [hfr, rollingVar_getElem? 1 20 _ i hlen, if_neg (by omega),
      windowAt_map_sum _ 20 i _ hw hlen, hsum,
      show i + 1 - 20 = i - 19 from by omega]
    norm_num
  refine ⟨_, _, hmean, hvar, rfl, rfl, ?_, ?_⟩
  · intro u
    constructor
    · rintro ⟨m', v', hm', hv', rfl⟩
      have hm2 : (rollingMean 20 (ps.map (·.close)))[i]? = some (some m') := hm'
      have hv2 : (rollingVar 1 20 (ps.map (·.close)))[i]? = some (some v') := hv'
      rw [show (rollingMean 20 (ps.map (·.close))) = (ctiFrame ps).sma20 from rfl,
        hmean] at hm2
      rw [show (rollingVar 1 20 (ps.map (·.close))) = (ctiFrame ps).var20 from rfl,
        hvar] at hv2
      simp only [Option.some.injEq] at hm2 hv2
      rw [hv2, hm2]
    · intro hu
      exact ⟨_, _, hmean, hvar, hu⟩
  · intro u
    constructor
    · rintro ⟨m', v', hm', hv', rfl⟩
      have hm2 : (rollingMean 20 (ps.map (·.close)))[i]? = some (some m') := hm'
      have hv2 : (rollingVar 1 20 (ps.map (·.close)))[i]? = some (some v') := hv'
      rw [show (rollingMean 20 (ps.map (·.close))) = (ctiFrame ps).sma20 from rfl,
        hmean] at hm2
      rw [show (rollingVar 1 20 (ps.map (·.close))) = (ctiFrame ps).var20 from rfl,
        hvar] at hv2
      simp only [Option.some.injEq] at hm2 hv2
      rw [hv2, hm2]
    · intro hu
      exact ⟨_, _, hmean, hvar, hu⟩

/-- Witness for C2's amended theorem at a concrete 20-point series. -/
theorem C2_bollinger_sample_std_witness :
    ∃ m v : ℚ,
      (ctiFrame (List.replicate 20 ⟨1, 1, 1, 1, 1⟩)).sma20[19]? = some (some m) ∧
      (ctiFrame (List.replicate 20 ⟨1, 1, 1, 1, 1⟩)).var20[19]? = some (some v) := by
  obtain ⟨m, v, h1, h2, -, -, -, -⟩ :=
    C2_bollinger_sample_std (List.replicate 20 ⟨1, 1, 1, 1, 1⟩) 19 (by norm_num)
      (by rw [List.length_replicate]; norm_num)
  exact ⟨m, v, h1, h2⟩

/-- C3: at every index of any non-empty series, the MACD cell is the
12-span EMA minus the 26-span EMA of the closes, each EMA satisfying
the seeded recurrence with smoothing 2/(span+1) (the adjust=False
convention); the Signal_Line cell is the 9-span EMA of the MACD column
under the same convention; and the MACD_Histogram cell is exactly MACD
minus Signal_Line. -/
theorem C3_macd (ps : List PricePoint) (_hne : ps ≠ []) (t : ℕ) (ht : t < ps.length) :
    (ctiFrame ps).macd[t]? = some
      (emaSpec (2 / (12 + 1)) (ps.map (·.close)) t -
        emaSpec (2 / (26 + 1)) (ps.map (·.close)) t) ∧
    (ctiFrame ps).signal_line[t]? = some
      (emaSpec (2 / (9 + 1)) ((ctiFrame ps).macd) t) ∧
    (ctiFrame ps).macd_histogram[t]? = some
      ((ctiFrame ps).macd.getD t 0 - (ctiFrame ps).signal_line.getD t 0) := by
  have hlen : t < (ps.map (·.close)).length := by simpa using ht
  have ha12 : alphaOfSpan 12 = 2 / (12 + 1) := by norm_num [alphaOfSpan]
  have ha26 : alphaOfSpan 26 = 2 / (26 + 1) := by norm_num [alphaOfSpan]
  have ha9 : alphaOfSpan 9 = 2 / (9 + 1) := by norm_num [alphaOfSpan]
  have h12 : (ewmAdjFalse 12 (ps.map (·.close))).getD t 0 =
      emaSpec (2 / (12 + 1)) (ps.map (·.close)) t := by
    rw [List.getD_eq_getElem?_getD, ewmAdjFalse_getElem? 12 _ t hlen, ha12]
    rfl
  have h26 : (ewmAdjFalse 26 (ps.map (·.close))).getD t 0 =
      emaSpec (2 / (26 + 1)) (ps.map (·.close)) t := by
    rw [List.getD_eq_getElem?_getD, ewmAdjFalse_getElem? 26 _ t hlen, ha26]
    rfl
  refine ⟨?_, ?_, ?_⟩
  · show (macdLine (ps.map (·.close)))[t]? = _
    unfold macdLine
    rw [zipWith_getElem?_eq _ _ _ t (by rw [ewmAdjFalse_length]; exact hlen)
      (by rw [ewmAdjFalse_length]; exact hlen), h12, h26]
  · show (signalLine (ps.map (·.close)))[t]? = _
    unfold signalLine
    rw [ewmAdjFalse_getElem? 9 _ t (by rw [macdLine_length]; exact hlen), ha9]
    rfl
  · show (macdHistogram (ps.map (·.close)))[t]? = _
    unfold macdHistogram
    rw [zipWith_getElem?_eq _ _ _ t (by rw [macdLine_length]; exact hlen)
      (by rw [signalLine_length]; exact hlen)]
    rfl

/-- Witness for C3 at a concrete two-point series and index 1. -/
theorem C3_macd_witness :
    (ctiFrame [⟨1, 1, 1, 1, 1⟩, ⟨2, 2, 2, 2, 2⟩]).macd_histogram[1]? = some
      ((ctiFrame [⟨1, 1, 1, 1, 1⟩, ⟨2, 2, 2, 2, 2⟩]).macd.getD 1 0 -
        (ctiFrame [⟨1, 1, 1, 1, 1⟩, ⟨2, 2, 2, 2, 2⟩]).signal_line.getD 1 0) :=
  (C3_macd [⟨1, 1, 1, 1, 1⟩, ⟨2, 2, 2, 2, 2⟩] (by simp) 1 (by simp)).2.2

lemma getElem?_zipWith_some {α β γ : Type} (f : α → β → γ) :
    ∀ (as : List α) (bs : List β) (t : ℕ) (x : γ),
      (List.zipWith f as bs)[t]? = some x →
      ∃ a b, as[t]? = some a ∧ bs[t]? = some b ∧ x = f a b := by
  intro as
  induction as with
  | nil => intro bs t x h; simp at h
  | cons a as ih =>
    intro bs t x h
    cases bs with
    | nil => simp at h
    | cons b bs =>
      cases t with
      | zero =>
        simp only [List.zipWith_cons_cons, List.getElem?_cons_zero,
          Option.some.injEq] at h
        exact ⟨a, b, by simp, by simp, h.symm⟩
      | succ t =>
        simp only [List.zipWith_cons_cons, List.getElem?_cons_succ] at h ⊢
        exact ih bs t x h

lemma getElem?_zipWith_of_some {α β γ : Type} (f : α → β → γ) :
    ∀ (as : List α) (bs : List β) (t : ℕ) (a : α) (b : β),
      as[t]? = some a → bs[t]? = some b →
      (List.zipWith f as bs)[t]? = some (f a b) := by
  intro as
  induction as with
  | nil => intro bs t a b ha _; simp at ha
  | cons x as ih =>
    intro bs t a b ha hb
    cases bs with
    | nil => simp at hb
    | cons y bs =>
      cases t with
      | zero =>
        simp only [List.getElem?_cons_zero, Option.some.injEq] at ha hb
        simp [ha, hb]
      | succ t =>
        simp only [List.getElem?_cons_succ] at ha hb ⊢
        simp only [List.zipWith_cons_cons, List.getElem?_cons_succ]
        exact ih bs t a b ha hb

/-- C4: wherever the RSI column of `calculate_technical_indicators` is
defined, its value lies in the closed interval from 0 to 100; and when
the 14-period average loss is zero while the average gain is positive,
the RSI cell equals 100. -/
theorem C4_rsi_range (ps : List PricePoint) :
    (∀ i : ℕ, ∀ r : ℚ, (ctiFrame ps).rsi[i]? = some (some r) →
      0 ≤ r ∧ r ≤ 100) ∧
    (∀ i : ℕ, ∀ g : ℚ, (avgGain (ps.map (·.close)))[i]? = some (some g) →
      (avgLoss (ps.map (·.close)))[i]? = some (some 0) → 0 < g →
      (ctiFrame ps).rsi[i]? = some (some 100)) := by
  have hfr : (ctiFrame ps).rsi = rsiColumn (ps.map (·.close)) := rfl
  constructor
  · intro i r h
    rw [hfr] at h
    unfold rsiColumn at h
    obtain ⟨og, ol, hog, hol, hx⟩ := getElem?_zipWith_some _ _ _ _ _ h
    cases og with
    | none => simp at hx
    | some g =>
      cases ol with
      | none => simp at hx
      | some l =>
        have hg : 0 ≤ g := rollingMean_nonneg 14 _ i g (gains_nonneg _) hog
        have hl : 0 ≤ l := rollingMean_nonneg 14 _ i l (losses_nonneg _) hol
        dsimp only at hx
        by_cases hl0 : l = 0
        · subst hl0
          rw [if_neg (by simp)] at hx
          by_cases hgp : 0 < g
          · rw [if_pos hgp] at hx
            simp only [Option.some.injEq] at hx
            subst hx
            norm_num
          · rw [if_neg hgp] at hx
            exact absurd hx (by simp)
        · rw [if_pos hl0] at hx
          simp only [Option.some.injEq] at hx
          have hlpos : 0 < l := lt_of_le_of_ne hl (Ne.symm hl0)
          have hq : 0 ≤ g / l := div_nonneg hg (le_of_lt hlpos)
          have hd1 : 0 < 100 / (1 + g / l) := by positivity
          have hd2 : 100 / (1 + g / l) ≤ 100 := div_le_self (by norm_num) (by linarith)
          subst hx
          constructor <;> linarith
  · intro i g hg hl hgp
    rw [hfr]
    unfold rsiColumn
    rw [getElem?_zipWith_of_some _ _ _ _ _ _ hg hl]
    simp [hgp]

/-- Witness for C4 at a concrete 14-point series whose last close rises:
the average loss is 0, the average gain positive, and RSI is 100. -/
theorem C4_rsi_range_witness :
    (ctiFrame [⟨1, 1, 1, 1, 1⟩, ⟨1, 1, 1, 1, 1⟩, ⟨1, 1, 1, 1, 1⟩, ⟨1, 1, 1, 1, 1⟩,
      ⟨1, 1, 1, 1, 1⟩, ⟨1, 1, 1, 1, 1⟩, ⟨1, 1, 1, 1, 1⟩, ⟨1, 1, 1, 1, 1⟩,
      ⟨1, 1, 1, 1, 1⟩, ⟨1, 1, 1, 1, 1⟩, ⟨1, 1, 1, 1, 1⟩, ⟨1, 1, 1, 1, 1⟩,
      ⟨1, 1, 1, 1, 1⟩, ⟨2, 2, 2, 2, 2⟩]).rsi[13]? = some (some 100) := by
  have hmap : ([⟨1, 1, 1, 1, 1⟩, ⟨1, 1, 1, 1, 1⟩, ⟨1, 1, 1, 1, 1⟩, ⟨1, 1, 1, 1, 1⟩,
      ⟨1, 1, 1, 1, 1⟩, ⟨1, 1, 1, 1, 1⟩, ⟨1, 1, 1, 1, 1⟩, ⟨1, 1, 1, 1, 1⟩,
      ⟨1, 1, 1, 1, 1⟩, ⟨1, 1, 1, 1, 1⟩, ⟨1, 1, 1, 1, 1⟩, ⟨1, 1, 1, 1, 1⟩,
      ⟨1, 1, 1, 1, 1⟩, (⟨2, 2, 2, 2, 2⟩ : PricePoint)].map (·.close)) =
      [1, 1, 1, 1, 1, 1, 1, 1, 1, 1, 1, 1, 1, 2] := rfl
  have hgain : gains [(1 : ℚ), 1, 1, 1, 1, 1, 1, 1, 1, 1, 1, 1, 1, 2] =
      [0, 0, 0, 0, 0, 0, 0, 0, 0, 0, 0, 0, 0, 1] := by
    norm_num [gains, max_def]
  have hloss : losses [(1 : ℚ), 1, 1, 1, 1, 1, 1, 1, 1, 1, 1, 1, 1, 2] =
      [0, 0, 0, 0, 0, 0, 0, 0, 0, 0, 0, 0, 0, 0] := by
    norm_num [losses, max_def]
  have hwinG : windowAt 14 13 [(0 : ℚ), 0, 0, 0, 0, 0, 0, 0, 0, 0, 0, 0, 0, 1] =
      [0, 0, 0, 0, 0, 0, 0, 0, 0, 0, 0, 0, 0, 1] := rfl
  have hwinL : windowAt 14 13 [(0 : ℚ), 0, 0, 0, 0, 0, 0, 0, 0, 0, 0, 0, 0, 0] =
      [0, 0, 0, 0, 0, 0, 0, 0, 0, 0, 0, 0, 0, 0] := rfl
  have havgG : (avgGain [(1 : ℚ), 1, 1, 1, 1, 1, 1, 1, 1, 1, 1, 1, 1, 2])[13]? =
      some (some (1 / 14)) := by
    unfold avgGain
    rw [hgain, rollingMean_getElem? 14 _ 13 (by norm_num), if_neg (by norm_num), hwinG]
    norm_num
  have havgL : (avgLoss [(1 : ℚ), 1, 1, 1, 1, 1, 1, 1, 1, 1, 1, 1, 1, 2])[13]? =
      some (some 0) := by
    unfold avgLoss
    rw [hloss, rollingMean_getElem? 14 _ 13 (by norm_num), if_neg (by norm_num), hwinL]
    norm_num
  exact (C4_rsi_range _).2 13 (1 / 14) (by rw [hmap]; exact havgG)
    (by rw [hmap]; exact havgL) (by norm_num)

/-- C5: `calculate_technical_indicators` maps a null or empty series to
`None` rather than failing; on any non-empty series it totally computes
a frame whose columns all have the input's length, and every
not-yet-filled rolling cell is the explicit undefined marker `none`. -/
theorem C5_null_empty_and_markers :
    calculate_technical_indicators none = none ∧
    calculate_technical_indicators (some []) = none ∧
    ∀ ps : List PricePoint, ps ≠ [] →
      calculate_technical_indicators (some ps) = some (ctiFrame ps) ∧
      (ctiFrame ps).ma20.length = ps.length ∧
      (ctiFrame ps).ma50.length = ps.length ∧
      (ctiFrame ps).ma200.length = ps.length ∧
      (ctiFrame ps).sma20.length = ps.length ∧
      (ctiFrame ps).var20.length = ps.length ∧
      (ctiFrame ps).rsi.length = ps.length ∧
      (ctiFrame ps).macd.length = ps.length ∧
      (ctiFrame ps).signal_line.length = ps.length ∧
      (ctiFrame ps).macd_histogram.length = ps.length ∧
      (ctiFrame ps).volume_ema.length = ps.length ∧
      (∀ i : ℕ, i < ps.length → i < 19 → (ctiFrame ps).ma20[i]? = some none) ∧
      (∀ i : ℕ, i < ps.length → i < 49 → (ctiFrame ps).ma50[i]? = some none) ∧
      (∀ i : ℕ, i < ps.length → i < 199 → (ctiFrame ps).ma200[i]? = some none) ∧
      (∀ i : ℕ, i < ps.length → i < 19 → (ctiFrame ps).var20[i]? = some none) ∧
      (∀ i : ℕ, i < ps.length → i < 13 → (ctiFrame ps).rsi[i]? = some none) := by
  refine ⟨rfl, rfl, ?_⟩
  intro ps hne
  have hclen : (ps.map (·.close)).length = ps.length := by simp
  have hvlen : (ps.map (·.volume)).length = ps.length := by simp
  refine ⟨?_, ?_, ?_, ?_, ?_, ?_, ?_, ?_, ?_, ?_, ?_, ?_, ?_, ?_, ?_, ?_⟩
  · simp [calculate_technical_indicators, hne]
  · show (rollingMean 20 (ps.map (·.close))).length = ps.length
    rw [rollingMean_length, hclen]
  · show (rollingMean 50 (ps.map (·.close))).length = ps.length
    rw [rollingMean_length, hclen]
  · show (rollingMean 200 (ps.map (·.close))).length = ps.length
    rw [rollingMean_length, hclen]
  · show (rollingMean 20 (ps.map (·.close))).length = ps.length
    rw [rollingMean_length, hclen]
  · show (rollingVar 1 20 (ps.map (·.close))).length = ps.length
    rw [rollingVar_length, hclen]
  · show (rsiColumn (ps.map (·.close))).length = ps.length
    rw [rsiColumn_length, hclen]
  · show (macdLine (ps.map (·.close))).length = ps.length
    rw [macdLine_length, hclen]
  · show (signalLine (ps.map (·.close))).length = ps.length
    rw [signalLine_length, hclen]
  · show (macdHistogram (ps.map (·.close))).length = ps.length
    rw [macdHistogram_length, hclen]
  · show (ewmAdjFalse 20 (ps.map (·.volume))).length = ps.length
    rw [ewmAdjFalse_length, hvlen]
  · intro i hi hw
    show (rollingMean 20 (ps.map (·.close)))[i]? = some none
    rw [rollingMean_getElem? 20 _ i (by omega), if_pos (by omega)]
  · intro i hi hw
    show (rollingMean 50 (ps.map (·.close)))[i]? = some none
    rw [rollingMean_getElem? 50 _ i (by omega), if_pos (by omega)]
  · intro i hi hw
    show (rollingMean 200 (ps.map (·.close)))[i]? = some none
    rw [rollingMean_getElem? 200 _ i (by omega), if_pos (by omega)]
  · intro i hi hw
    show (rollingVar 1 20 (ps.map (·.close)))[i]? = some none
    rw [rollingVar_getElem? 1 20 _ i (by omega), if_pos (by omega)]
  · intro i hi hw
    show (rsiColumn (ps.map (·.close)))[i]? = some none
    have hG : (avgGain (ps.map (·.close)))[i]? = some none := by
      unfold avgGain
      rw [rollingMean_getElem? 14 _ i (by rw [gains_length]; omega),
        if_pos (by omega)]
    have hLlen : i < (avgLoss (ps.map (·.close))).length := by
      unfold avgLoss
      rw [rollingMean_length, losses_length]; omega
    have hL : (avgLoss (ps.map (·.close)))[i]? =
        some ((avgLoss (ps.map (·.close))).get ⟨i, hLlen⟩) := by
      simp [List.getElem?_eq_getElem hLlen]
    unfold rsiColumn
    rw [getElem?_zipWith_of_some _ _ _ _ _ _ hG hL]

/-- Witness for C5's non-empty branch at a one-point series. -/
theorem C5_null_empty_and_markers_witness :
    calculate_technical_indicators (some [⟨1, 1, 1, 1, 1⟩]) =
      some (ctiFrame [⟨1, 1, 1, 1, 1⟩]) ∧
    (ctiFrame [⟨1, 1, 1, 1, 1⟩]).ma20[0]? = some none := by
  obtain ⟨h1, -, -, -, -, -, -, -, -, -, -, hma20, -, -, -, -⟩ :=
    C5_null_empty_and_markers.2.2 [⟨1, 1, 1, 1, 1⟩] (by simp)
  exact ⟨h1, hma20 0 (by simp) (by norm_num)⟩

lemma summaryScale_eq_format_large_number (x : PyVal) (hx : isNumber x = true) :
    summaryScale (toRat x) = format_large_number x := by
  cases x with
  | pint n => rfl
  | pfloat q => rfl
  | pstr s => simp [isNumber] at hx
  | pnone => simp [isNumber] at hx

lemma fmtTwoDec_1000 : fmtTwoDec 1000 = "1000.00" := by
  have hmul : (1000 : ℚ) * 100 = 100000 := by norm_num
  have hre : roundHalfEven 100000 = 100000 := by
    unfold roundHalfEven
    norm_num
  unfold fmtTwoDec
  rw [hmul, hre]
  rfl

lemma fmtTwoDec_500 : fmtTwoDec 500 = "500.00" := by
  have hmul : (500 : ℚ) * 100 = 50000 := by norm_num
  have hre : roundHalfEven 50000 = 50000 := by
    unfold roundHalfEven
    norm_num
  unfold fmtTwoDec
  rw [hmul, hre]
  rfl

/-- C6: the large-number formatter uses strictly-greater-than
thresholds: a numeric value scales to B exactly when above one
billion, else to M exactly when above one million, else to K exactly
when above one thousand, else renders raw with two decimals; in
particular exactly 1,000,000 takes the K branch and renders
"$1000.00K", 500,000 renders "$500.00K", and the scaling branch of
`get_financial_summary`'s formatting loop agrees with
`format_large_number` on every numeric non-ratio field. -/
theorem C6_strict_thresholds :
    (∀ x : PyVal, isNumber x = true → 1000000000 < toRat x →
      format_large_number x = "$" ++ fmtTwoDec (toRat x / 1000000000) ++ "B") ∧
    (∀ x : PyVal, isNumber x = true → toRat x ≤ 1000000000 → 1000000 < toRat x →
      format_large_number x = "$" ++ fmtTwoDec (toRat x / 1000000) ++ "M") ∧
    (∀ x : PyVal, isNumber x = true → toRat x ≤ 1000000 → 1000 < toRat x →
      format_large_number x = "$" ++ fmtTwoDec (toRat x / 1000) ++ "K") ∧
    (∀ x : PyVal, isNumber x = true → toRat x ≤ 1000 →
      format_large_number x = "$" ++ fmtTwoDec (toRat x)) ∧
    format_large_number (.pint 1000000) = "$1000.00K" ∧
    format_large_number (.pfloat 500000) = "$500.00K" ∧
    (∀ x : PyVal, ∀ k : String, isNumber x = true → ratioKeys.contains k = false →
      formatEntry k x = .pstr (format_large_number x)) := by
  refine ⟨?_, ?_, ?_, ?_, ?_, ?_, ?_⟩
  · intro x hx h
    cases x with
    | pint n =>
      simp only [toRat] at h
      simp only [format_large_number, toRat, if_pos h]
    | pfloat q =>
      simp only [toRat] at h
      simp only [format_large_number, toRat, if_pos h]
    | pstr s => simp [isNumber] at hx
    | pnone => simp [isNumber] at hx
  · intro x hx h1 h2
    cases x with
    | pint n =>
      simp only [toRat] at h1 h2
      simp only [format_large_number, toRat, if_neg (not_lt.mpr h1), if_pos h2]
    | pfloat q =>
      simp only [toRat] at h1 h2
      simp only [format_large_number, toRat, if_neg (not_lt.mpr h1), if_pos h2]
    | pstr s => simp [isNumber] at hx
    | pnone => simp [isNumber] at hx
  · intro x hx h1 h2
    cases x with
    | pint n =>
      simp only [toRat] at h1 h2
      simp only [format_large_number, toRat,
        if_neg (not_lt.mpr (h1.trans (by norm_num : (1000000 : ℚ) ≤ 1000000000))),
        if_neg (not_lt.mpr h1), if_pos h2]
    | pfloat q =>
      simp only [toRat] at h1 h2
      simp only [format_large_number, toRat,
        if_neg (not_lt.mpr (h1.trans (by norm_num : (1000000 : ℚ) ≤ 1000000000))),
        if_neg (not_lt.mpr h1), if_pos h2]
    | pstr s => simp [isNumber] at hx
    | pnone => simp [isNumber] at hx
  · intro x hx h1
    cases x with
    | pint n =>
      simp only [toRat] at h1
      simp only [format_large_number, toRat,
        if_neg (not_lt.mpr (h1.trans (by norm_num : (1000 : ℚ) ≤ 1000000000))),
        if_neg (not_lt.mpr (h1.trans (by norm_num : (1000 : ℚ) ≤ 1000000))),
        if_neg (not_lt.mpr h1)]
    | pfloat q =>
      simp only [toRat] at h1
      simp only [format_large_number, toRat,
        if_neg (not_lt.mpr (h1.trans (by norm_num : (1000 : ℚ) ≤ 1000000000))),
        if_neg (not_lt.mpr (h1.trans (by norm_num : (1000 : ℚ) ≤ 1000000))),
        if_neg (not_lt.mpr h1)]
    | pstr s => simp [isNumber] at hx
    | pnone => simp [isNumber] at hx
  · have h1 : ¬ ((1000000000 : ℚ) < ((1000000 : ℤ) : ℚ)) := by norm_num
    have h2 : ¬ ((1000000 : ℚ) < ((1000000 : ℤ) : ℚ)) := by norm_num
    have h3 : (1000 : ℚ) < ((1000000 : ℤ) : ℚ) := by norm_num
    have h4 : ((1000000 : ℤ) : ℚ) / 1000 = 1000 := by norm_num
    simp only [format_large_number, if_neg h1, if_neg h2, if_pos h3, h4,
      fmtTwoDec_1000]
    rfl
  · have h1 : ¬ ((1000000000 : ℚ) < (500000 : ℚ)) := by norm_num
    have h2 : ¬ ((1000000 : ℚ) < (500000 : ℚ)) := by norm_num
    have h3 : (1000 : ℚ) < (500000 : ℚ) := by norm_num
    have h4 : (500000 : ℚ) / 1000 = 500 := by norm_num
    simp only [format_large_number, if_neg h1, if_neg h2, if_pos h3, h4,
      fmtTwoDec_500]
    rfl
  · intro x k hx hk
    unfold formatEntry
    rw [hx, hk]
    simp only [Bool.not_false, Bool.and_true, if_true]
    rw [summaryScale_eq_format_large_number x hx]

/-- Witness for C6 at concrete values in each guarded branch. -/
theorem C6_strict_thresholds_witness :
    format_large_number (.pfloat 2000000000) =
      "$" ++ fmtTwoDec ((2000000000 : ℚ) / 1000000000) ++ "B" ∧
    format_large_number (.pfloat 999) = "$" ++ fmtTwoDec (999 : ℚ) ∧
    formatEntry "market_cap" (.pint 5) = .pstr (format_large_number (.pint 5)) :=
  ⟨C6_strict_thresholds.1 (.pfloat 2000000000) rfl (by norm_num [toRat]),
   C6_strict_thresholds.2.2.2.1 (.pfloat 999) rfl (by norm_num [toRat]),
   C6_strict_thresholds.2.2.2.2.2.2 (.pint 5) "market_cap" rfl (by decide)⟩

lemma dictGet_none (info : List (String × PyVal)) (k : String) (d : PyVal)
    (h : info.lookup k = none) : dictGet info k d = d := by
  unfold dictGet
  rw [h]

/-- C7 counterexample: on a non-empty fundamentals record lacking
trailingPE, the displayed pe_ratio is the Python value None (the
default of the seven ratio-like lookups), not the literal string
"N/A" the claim asserts for every absent field. -/
theorem C7_absent_ratio_counterexample :
    ∃ s, get_financial_summary (some [("shortName", PyVal.pstr "Acme")]) = some s ∧
      s.lookup "pe_ratio" = some PyVal.pnone ∧
      PyVal.pnone ≠ PyVal.pstr "N/A" := by
  refine ⟨_, rfl, ?_, by simp⟩
  rfl

/-- C7 amended: on every non-empty fundamentals record, each display
field whose raw lookup carries the default string "N/A" renders as
"N/A" when its raw field is absent, and the formatter is total (never
raises); however the seven ratio-like fields fetched with default None
(pe_ratio, forward_pe, peg_ratio, price_to_book, enterprise_value,
enterprise_to_revenue, enterprise_to_ebitda) render as None, not
"N/A", when absent. -/
theorem C7_absent_fields (info : List (String × PyVal)) (hne : info ≠ []) :
    ∃ s, get_financial_summary (some info) = some s ∧
      (info.lookup "shortName" = none → s.lookup "name" = some (.pstr "N/A")) ∧
      (info.lookup "sector" = none → s.lookup "sector" = some (.pstr "N/A")) ∧
      (info.lookup "industry" = none → s.lookup "industry" = some (.pstr "N/A")) ∧
      (info.lookup "marketCap" = none → s.lookup "market_cap" = some (.pstr "N/A")) ∧
      (info.lookup "currentPrice" = none → info.lookup "regularMarketPrice" = none →
        s.lookup "current_price" = some (.pstr "N/A")) ∧
      (info.lookup "open" = none → s.lookup "open" = some (.pstr "N/A")) ∧
      (info.lookup "dayHigh" = none → s.lookup "high" = some (.pstr "N/A")) ∧
      (info.lookup "dayLow" = none → s.lookup "low" = some (.pstr "N/A")) ∧
      (info.lookup "previousClose" = none →
        s.lookup "previous_close" = some (.pstr "N/A")) ∧
      (info.lookup "volume" = none → s.lookup "volume" = some (.pstr "N/A")) ∧
      (info.lookup "averageVolume" = none →
        s.lookup "avg_volume" = some (.pstr "N/A")) ∧
      (info.lookup "fiftyTwoWeekHigh" = none →
        s.lookup "52w_high" = some (.pstr "N/A")) ∧
      (info.lookup "fiftyTwoWeekLow" = none →
        s.lookup "52w_low" = some (.pstr "N/A")) ∧
      (info.lookup "trailingPE" = none → s.lookup "pe_ratio" = some .pnone) ∧
      (info.lookup "forwardPE" = none → s.lookup "forward_pe" = some .pnone) ∧
      (info.lookup "pegRatio" = none → s.lookup "peg_ratio" = some .pnone) ∧
      (info.lookup "priceToBook" = none →
        s.lookup "price_to_book" = some .pnone) ∧
      (info.lookup "enterpriseValue" = none →
        s.lookup "enterprise_value" = some .pnone) ∧
      (info.lookup "enterpriseToRevenue" = none →
        s.lookup "enterprise_to_revenue" = some .pnone) ∧
      (info.lookup "enterpriseToEbitda" = none →
        s.lookup "enterprise_to_ebitda" = some .pnone) ∧
      (info.lookup "beta" = none → s.lookup "beta" = some (.pstr "N/A")) ∧
      (info.lookup "dividendRate" = none →
        s.lookup "dividend_rate" = some (.pstr "N/A")) ∧
      (info.lookup "dividendYield" = none →
        s.lookup "dividend_yield" = some (.pstr "N/A")) ∧
      (info.lookup "targetMeanPrice" = none →
        s.lookup "target_mean_price" = some (.pstr "N/A")) ∧
      (info.lookup "recommendationKey" = none →
        s.lookup "recommendation" = some (.pstr "N/A")) ∧
      (info.lookup "esgScore" = none →
        s.lookup "esg_score" = some (.pstr "N/A")) := by
  obtain ⟨a, t, rfl⟩ := List.exists_cons_of_ne_nil hne
  refine ⟨(buildSummary (a :: t)).map
      (fun p : String × PyVal => (p.1, formatEntry p.1 p.2)),
    rfl, ?_, ?_, ?_, ?_, ?_, ?_, ?_, ?_, ?_, ?_, ?_, ?_, ?_, ?_, ?_, ?_, ?_,
    ?_, ?_, ?_, ?_, ?_, ?_, ?_, ?_, ?_⟩
  · intro h
    show some (formatEntry "name" (dictGet (a :: t) "shortName" (.pstr "N/A"))) = _
    rw [dictGet_none _ _ _ h]
    rfl
  · intro h
    show some (formatEntry "sector" (dictGet (a :: t) "sector" (.pstr "N/A"))) = _
    rw [dictGet_none _ _ _ h]
    rfl
  · intro h
    show some (formatEntry "industry" (dictGet (a :: t) "industry" (.pstr "N/A"))) = _
    rw [dictGet_none _ _ _ h]
    rfl
  · intro h
    show some (formatEntry "market_cap" (dictGet (a :: t) "marketCap" (.pstr "N/A"))) = _
    rw [dictGet_none _ _ _ h]
    rfl
  · intro h1 h2
    show some (formatEntry "current_price" (dictGet (a :: t) "currentPrice"
      (dictGet (a :: t) "regularMarketPrice" (.pstr "N/A")))) = _
    rw [dictGet_none _ _ _ h2, dictGet_none _ _ _ h1]
    rfl
  · intro h
    show some (formatEntry "open" (dictGet (a :: t) "open" (.pstr "N/A"))) = _
    rw [dictGet_none _ _ _ h]
    rfl
  · intro h
    show some (formatEntry "high" (dictGet (a :: t) "dayHigh" (.pstr "N/A"))) = _
    rw [dictGet_none _ _ _ h]
    rfl
  · intro h
    show some (formatEntry "low" (dictGet (a :: t) "dayLow" (.pstr "N/A"))) = _
    rw [dictGet_none _ _ _ h]
    rfl
  · intro h
    show some (formatEntry "previous_close"
      (dictGet (a :: t) "previousClose" (.pstr "N/A"))) = _
    rw [dictGet_none _ _ _ h]
    rfl
  · intro h
    show some (formatEntry "volume" (dictGet (a :: t) "volume" (.pstr "N/A"))) = _
    rw [dictGet_none _ _ _ h]
    rfl
  · intro h
    show some (formatEntry "avg_volume"
      (dictGet (a :: t) "averageVolume" (.pstr "N/A"))) = _
    rw [dictGet_none _ _ _ h]
    rfl
  · intro h
    show some (formatEntry "52w_high"
      (dictGet (a :: t) "fiftyTwoWeekHigh" (.pstr "N/A"))) = _
    rw [dictGet_none _ _ _ h]
    rfl
  · intro h
    show some (formatEntry "52w_low"
      (dictGet (a :: t) "fiftyTwoWeekLow" (.pstr "N/A"))) = _
    rw [dictGet_none _ _ _ h]
    rfl
  · intro h
    show some (formatEntry "pe_ratio" (dictGet (a :: t) "trailingPE" .pnone)) = _
    rw [dictGet_none _ _ _ h]
    rfl
  · intro h
    show some (formatEntry "forward_pe" (dictGet (a :: t) "forwardPE" .pnone)) = _
    rw [dictGet_none _ _ _ h]
    rfl
  · intro h
    show some (formatEntry "peg_ratio" (dictGet (a :: t) "pegRatio" .pnone)) = _
    rw [dictGet_none _ _ _ h]
    rfl
  · intro h
    show some (formatEntry "price_to_book"
      (dictGet (a :: t) "priceToBook" .pnone)) = _
    rw [dictGet_none _ _ _ h]
    rfl
  · intro h
    show some (formatEntry "enterprise_value"
      (dictGet (a :: t) "enterpriseValue" .pnone)) = _
    rw [dictGet_none _ _ _ h]
    rfl
  · intro h
    show some (formatEntry "enterprise_to_revenue"
      (dictGet (a :: t) "enterpriseToRevenue" .pnone)) = _
    rw [dictGet_none _ _ _ h]
    rfl
  · intro h
    show some (formatEntry "enterprise_to_ebitda"
      (dictGet (a :: t) "enterpriseToEbitda" .pnone)) = _
    rw [dictGet_none _ _ _ h]
    rfl
  · intro h
    show some (formatEntry "beta" (dictGet (a :: t) "beta" (.pstr "N/A"))) = _
    rw [dictGet_none _ _ _ h]
    rfl
  · intro h
    show some (formatEntry "dividend_rate"
      (dictGet (a :: t) "dividendRate" (.pstr "N/A"))) = _
    rw [dictGet_none _ _ _ h]
    rfl
  · intro h
    show some (formatEntry "dividend_yield"
      (if pyTruthy (dictGet (a :: t) "dividendYield" .pnone) then
        pyMul100 (dictGet (a :: t) "dividendYield" (.pstr "N/A"))
      else .pstr "N/A")) = _
    rw [dictGet_none _ _ _ h]
    rfl
  · intro h
    show some (formatEntry "target_mean_price"
      (dictGet (a :: t) "targetMeanPrice" (.pstr "N/A"))) = _
    rw [dictGet_none _ _ _ h]
    rfl
  · intro h
    show some (formatEntry "recommendation"
      (dictGet (a :: t) "recommendationKey" (.pstr "N/A"))) = _
    rw [dictGet_none _ _ _ h]
    rfl
  · intro h
    show some (formatEntry "esg_score"
      (dictGet (a :: t) "esgScore" (.pstr "N/A"))) = _
    rw [dictGet_none _ _ _ h]
    rfl

/-- Witness for C7's amended theorem at a concrete one-field record. -/
theorem C7_absent_fields_witness :
    ∃ s, get_financial_summary (some [("shortName", PyVal.pstr "Acme")]) = some s ∧
      s.lookup "pe_ratio" = some PyVal.pnone ∧
      s.lookup "market_cap" = some (PyVal.pstr "N/A") := by
  obtain ⟨s, hs, -, -, -, hmc, -, -, -, -, -, -, -, -, -, hpe, -, -, -, -, -,
    -, -, -, -, -, -⟩ :=
    C7_absent_fields [("shortName", PyVal.pstr "Acme")] (by simp)
  exact ⟨s, hs, hpe rfl, hmc rfl⟩

/-- C8: from any well-formed store in which user u exists and does not
yet favorite symbol s, adding s succeeds, adding it a second time
fails with the already-favorited message and leaves the store exactly
as it was after the first call, and the favorites listing afterwards
contains s exactly once. -/
theorem C8_add_favorite_twice (st : Store) (u : ℕ) (s : String) (nm : Option String)
    (usr : UserRec) (wf : StoreWF st) (husr : findUser st u = some usr)
    (hnot : s ∉ (get_user_favorites st u).map (·.symbol)) :
    (add_favorite_stock st u s nm).1.1 = true ∧
    add_favorite_stock (add_favorite_stock st u s nm).2 u s nm =
      ((false, s ++ " is already in your favorites."),
        (add_favorite_stock st u s nm).2) ∧
    ((get_user_favorites (add_favorite_stock st u s nm).2 u).map (·.symbol)).count s
      = 1 := by
  have hguf : get_user_favorites st u = userFavoriteStocks st u := by
    unfold get_user_favorites
    rw [husr]
  rw [hguf] at hnot
  have hany : (userFavoriteStocks st u).any (fun r => r.symbol == s) = false := by
    rw [List.any_eq_false]
    intro r hr
    simp only [beq_iff_eq]
    intro hrs
    exact hnot (List.mem_map.mpr ⟨r, hr, hrs⟩)
  obtain ⟨st1, hst1, husers1, hsyms1⟩ := add_favorite_success st u s nm usr wf husr hany
  have husr1 : findUser st1 u = some usr := by
    unfold findUser
    rw [husers1]
    exact husr
  have hguf1 : get_user_favorites st1 u = userFavoriteStocks st1 u := by
    unfold get_user_favorites
    rw [husr1]
  have hmem1 : s ∈ (userFavoriteStocks st1 u).map (·.symbol) := by
    rw [hsyms1]
    exact List.mem_append.mpr (Or.inr (by simp))
  have hany1 : (userFavoriteStocks st1 u).any (fun r => r.symbol == s) = true := by
    rw [List.any_eq_true]
    obtain ⟨r, hr, hrs⟩ := List.mem_map.mp hmem1
    exact ⟨r, hr, by simp [hrs]⟩
  refine ⟨by rw [hst1], ?_, ?_⟩
  · rw [hst1]
    show add_favorite_stock st1 u s nm = _
    simp only [add_favorite_stock, husr1, hany1, if_true]
  · rw [hst1]
    show ((get_user_favorites st1 u).map (·.symbol)).count s = 1
    rw [hguf1, hsyms1, List.count_append,
      List.count_eq_zero.mpr hnot]
    simp

/-- Witness for C8 at a concrete one-user empty-favorites store. -/
theorem C8_add_favorite_twice_witness :
    (add_favorite_stock ⟨[⟨1, "alice", "alice@example.com", "hash"⟩], [], []⟩
      1 "AAPL" none).1.1 = true ∧
    ((get_user_favorites (add_favorite_stock
        ⟨[⟨1, "alice", "alice@example.com", "hash"⟩], [], []⟩
        1 "AAPL" none).2 1).map (·.symbol)).count "AAPL" = 1 := by
  obtain ⟨h1, -, h3⟩ := C8_add_favorite_twice
    ⟨[⟨1, "alice", "alice@example.com", "hash"⟩], [], []⟩ 1 "AAPL" none
    ⟨1, "alice", "alice@example.com", "hash"⟩
    ⟨by simp, by simp, by simp, by simp⟩ rfl (by simp [get_user_favorites,
      findUser, userFavoriteStocks])
  exact ⟨h1, h3⟩

/-- C9 counterexample: removing a symbol for which no Stock row exists
fails with the stock-not-found message, not the not-in-your-favorites
(NotFavorited) message the claim asserts for every non-favorited
pair; the store is nevertheless unchanged. -/
theorem C9_stock_not_found_counterexample :
    remove_favorite_stock ⟨[⟨1, "bob", "bob@example.com", "hash"⟩], [], []⟩
        1 "MSFT" =
      ((false, "Stock MSFT not found."),
        ⟨[⟨1, "bob", "bob@example.com", "hash"⟩], [], []⟩) ∧
    "Stock MSFT not found." ≠ "MSFT is not in your favorites." :=
  ⟨rfl, by decide⟩

/-- C9 amended: whenever (u, s) is not a favorite pair the call fails
and leaves the store completely unchanged, and the error is the
NotFavorited message exactly when the user and a Stock row for s both
exist (a missing user or missing Stock row produces the user-not-found
or stock-not-found error instead); whenever (u, s) is a favorite, the
call succeeds, deletes exactly that relation, and never deletes any
user or Stock row. -/
theorem C9_remove_favorite (st : Store) (u : ℕ) (s : String) :
    (s ∉ (userFavoriteStocks st u).map (·.symbol) →
      (remove_favorite_stock st u s).2 = st ∧
      (remove_favorite_stock st u s).1.1 = false ∧
      (∀ usr, findUser st u = some usr → ∀ s0, findStockBySymbol st s = some s0 →
        (remove_favorite_stock st u s).1.2 = s ++ " is not in your favorites.")) ∧
    (∀ usr, findUser st u = some usr →
      s ∈ (userFavoriteStocks st u).map (·.symbol) →
      ∃ s0, findStockBySymbol st s = some s0 ∧
        remove_favorite_stock st u s =
          ((true, s ++ " removed from favorites."),
            { st with favorites :=
                st.favorites.filter (fun p => !(p.1 == u && p.2 == s0.id)) }) ∧
        (remove_favorite_stock st u s).2.users = st.users ∧
        (remove_favorite_stock st u s).2.stocks = st.stocks ∧
        (∀ p : ℕ × ℕ, p ∈ (remove_favorite_stock st u s).2.favorites ↔
          p ∈ st.favorites ∧ p ≠ (u, s0.id))) := by
  constructor
  · intro hnot
    have hany : (userFavoriteStocks st u).any (fun r => r.symbol == s) = false := by
      rw [List.any_eq_false]
      intro r hr
      simp only [beq_iff_eq]
      intro hrs
      exact hnot (List.mem_map.mpr ⟨r, hr, hrs⟩)
    cases hu : findUser st u with
    | none =>
      refine ⟨?_, ?_, ?_⟩
      · simp only [remove_favorite_stock, hu]
      · simp only [remove_favorite_stock, hu]
      · intro usr husr
        exact absurd husr (by simp)
    | some usr =>
      cases hs : findStockBySymbol st s with
      | none =>
        refine ⟨?_, ?_, ?_⟩
        · simp only [remove_favorite_stock, hu, hs]
        · simp only [remove_favorite_stock, hu, hs]
        · intro usr' _ s0 hs0
          exact absurd hs0 (by simp)
      | some s0 =>
        refine ⟨?_, ?_, ?_⟩
        · simp only [remove_favorite_stock, hu, hs, hany, Bool.false_eq_true,
            if_false]
        · simp only [remove_favorite_stock, hu, hs, hany, Bool.false_eq_true,
            if_false]
        · intro usr' _ s0' _
          simp only [remove_favorite_stock, hu, hs, hany, Bool.false_eq_true,
            if_false]
  · intro usr husr hmem
    obtain ⟨r, hr, hrs⟩ := List.mem_map.mp hmem
    obtain ⟨p, -, hpfind⟩ := List.mem_filterMap.mp hr
    have hrstocks : r ∈ st.stocks := List.mem_of_find?_eq_some hpfind
    have hfound : (findStockBySymbol st s).isSome := by
      rw [findStockBySymbol, List.find?_isSome]
      exact ⟨r, hrstocks, by simp [hrs]⟩
    obtain ⟨s0, hs0⟩ := Option.isSome_iff_exists.mp hfound
    have hany : (userFavoriteStocks st u).any (fun x => x.symbol == s) = true := by
      rw [List.any_eq_true]
      exact ⟨r, hr, by simp [hrs]⟩
    have heq : remove_favorite_stock st u s =
        ((true, s ++ " removed from favorites."),
          { st with favorites :=
              st.favorites.filter (fun p => !(p.1 == u && p.2 == s0.id)) }) := by
      simp only [remove_favorite_stock, husr, hs0, hany, if_true]
    refine ⟨s0, hs0, heq, by rw [heq], by rw [heq], ?_⟩
    intro p
    rw [heq]
    show p ∈ st.favorites.filter (fun p => !(p.1 == u && p.2 == s0.id)) ↔ _
    rw [List.mem_filter]
    constructor
    · rintro ⟨hp, hcond⟩
      refine ⟨hp, ?_⟩
      intro hpe
      subst hpe
      simp at hcond
    · rintro ⟨hp, hne⟩
      refine ⟨hp, ?_⟩
      cases hb : (p.1 == u && p.2 == s0.id) with
      | false => simp
      | true =>
        exfalso
        simp only [Bool.and_eq_true, beq_iff_eq] at hb
        exact hne (Prod.ext hb.1 hb.2)

/-- Witness for C9's amended theorem at a concrete store with one
favorite. -/
theorem C9_remove_favorite_witness :
    (remove_favorite_stock ⟨[⟨1, "bob", "bob@example.com", "hash"⟩],
        [⟨7, "MSFT", none⟩], [(1, 7)]⟩ 1 "TSLA").2 =
      ⟨[⟨1, "bob", "bob@example.com", "hash"⟩], [⟨7, "MSFT", none⟩], [(1, 7)]⟩ ∧
    ∃ s0, findStockBySymbol ⟨[⟨1, "bob", "bob@example.com", "hash"⟩],
        [⟨7, "MSFT", none⟩], [(1, 7)]⟩ "MSFT" = some s0 ∧
      (remove_favorite_stock ⟨[⟨1, "bob", "bob@example.com", "hash"⟩],
        [⟨7, "MSFT", none⟩], [(1, 7)]⟩ 1 "MSFT").2.stocks =
        [⟨7, "MSFT", none⟩] := by
  obtain ⟨hA, -, -⟩ := (C9_remove_favorite
    ⟨[⟨1, "bob", "bob@example.com", "hash"⟩], [⟨7, "MSFT", none⟩], [(1, 7)]⟩
    1 "TSLA").1 (by decide)
  obtain ⟨s0, hs0, -, -, hstk, -⟩ := (C9_remove_favorite
    ⟨[⟨1, "bob", "bob@example.com", "hash"⟩], [⟨7, "MSFT", none⟩], [(1, 7)]⟩
    1 "MSFT").2 ⟨1, "bob", "bob@example.com", "hash"⟩ rfl (by decide)
  exact ⟨hA, s0, hs0, hstk⟩

/-- C10: a raw dividendYield of exactly 0 (int or float) is falsy, so
the ×100 scaling is skipped and dividend_yield renders as the string
"N/A"; a nonzero float dividendYield q renders as the two-decimal
formatting of q × 100. -/
theorem C10_dividend_yield_zero (info : List (String × PyVal)) (hne : info ≠ []) :
    (info.lookup "dividendYield" = some (.pfloat 0) →
      ∃ s, get_financial_summary (some info) = some s ∧
        s.lookup "dividend_yield" = some (.pstr "N/A")) ∧
    (info.lookup "dividendYield" = some (.pint 0) →
      ∃ s, get_financial_summary (some info) = some s ∧
        s.lookup "dividend_yield" = some (.pstr "N/A")) ∧
    (∀ q : ℚ, q ≠ 0 → info.lookup "dividendYield" = some (.pfloat q) →
      ∃ s, get_financial_summary (some info) = some s ∧
        s.lookup "dividend_yield" = some (.pstr (fmtTwoDec (q * 100)))) := by
  obtain ⟨a, t, rfl⟩ := List.exists_cons_of_ne_nil hne
  refine ⟨?_, ?_, ?_⟩
  · intro h
    refine ⟨_, rfl, ?_⟩
    show some (formatEntry "dividend_yield"
      (if pyTruthy (dictGet (a :: t) "dividendYield" .pnone) then
        pyMul100 (dictGet (a :: t) "dividendYield" (.pstr "N/A"))
      else .pstr "N/A")) = _
    have h1 : dictGet (a :: t) "dividendYield" .pnone = .pfloat 0 := by
      unfold dictGet
      rw [h]
    have hTr : pyTruthy (PyVal.pfloat 0) = false := by simp [pyTruthy]
    rw [h1, hTr]
    rfl
  · intro h
    refine ⟨_, rfl, ?_⟩
    show some (formatEntry "dividend_yield"
      (if pyTruthy (dictGet (a :: t) "dividendYield" .pnone) then
        pyMul100 (dictGet (a :: t) "dividendYield" (.pstr "N/A"))
      else .pstr "N/A")) = _
    have h1 : dictGet (a :: t) "dividendYield" .pnone = .pint 0 := by
      unfold dictGet
      rw [h]
    have hTr : pyTruthy (PyVal.pint 0) = false := by simp [pyTruthy]
    rw [h1, hTr]
    rfl
  · intro q hq h
    refine ⟨_, rfl, ?_⟩
    show some (formatEntry "dividend_yield"
      (if pyTruthy (dictGet (a :: t) "dividendYield" .pnone) then
        pyMul100 (dictGet (a :: t) "dividendYield" (.pstr "N/A"))
      else .pstr "N/A")) = _
    have h1 : dictGet (a :: t) "dividendYield" .pnone = .pfloat q := by
      unfold dictGet
      rw [h]
    have h2 : dictGet (a :: t) "dividendYield" (.pstr "N/A") = .pfloat q := by
      unfold dictGet
      rw [h]
    have hTr : pyTruthy (PyVal.pfloat q) = true := by simp [pyTruthy, hq]
    rw [h1, h2, hTr]
    rfl

/-- Witness for C10 at concrete zero and nonzero dividend yields. -/
theorem C10_dividend_yield_zero_witness :
    (∃ s, get_financial_summary (some [("dividendYield", PyVal.pfloat 0)]) =
        some s ∧ s.lookup "dividend_yield" = some (.pstr "N/A")) ∧
    (∃ s, get_financial_summary
        (some [("dividendYield", PyVal.pfloat (123 / 10000))]) = some s ∧
      s.lookup "dividend_yield" =
        some (.pstr (fmtTwoDec ((123 / 10000 : ℚ) * 100)))) :=
  ⟨(C10_dividend_yield_zero [("dividendYield", PyVal.pfloat 0)] (by simp)).1 rfl,
   (C10_dividend_yield_zero [("dividendYield", PyVal.pfloat (123 / 10000))]
      (by simp)).2.2 (123 / 10000) (by norm_num) rfl⟩

end Chandryaan3
